import Mathlib

/-!
Shallow embedding of the price-aggregation core of the flight-finder-mcp
repository, together with theorems settling the specification claims.

Modelling conventions:
* A calendar date string such as "2024-12-01" is modelled by its epoch day
  number (an integer counting days since 1970-01-01).  Sorting by
  `new Date(s).getTime()` is numeric order on day numbers, and
  `new Date(s).getDay()` is `(d + 4) % 7` (1970-01-01 was a Thursday).
* JS numbers are modelled by exact rationals; the decimal literals in the
  source (0.8, 1.3, 0.95, 1.2, 0.1, 0.15, 0.5, 0.6) become the
  corresponding rationals.
* Fallible functions (those that `throw`) return `Except String _`, the
  error carrying the thrown message.
* The advisory strings pushed by the recommendation generators are modelled
  by tagged values, one constructor per `push` site, carrying exactly the
  dynamic data interpolated into the string.
-/

/-- JS `Math.round`: round half toward positive infinity,
`Math.round x = ⌊x + 0.5⌋`. -/
def jround (q : ℚ) : ℤ := ⌊q + 1/2⌋

/-- JS `Math.min(...xs)` over a list of prices (`[] → 0` is a stub for the
JS value `Infinity`; every use below is either guarded by a non-emptiness
check in the source, as in `analyzeMonthlyFlightData`, or appears in a
theorem whose hypotheses rule the empty case out). -/
def jsMinPrice : List ℚ → ℚ
  | [] => 0
  | x :: xs => xs.foldl min x

/-- Arithmetic mean `xs.reduce((s, x) => s + x, 0) / xs.length`, the form
used throughout `flight-analyzer.ts`. -/
def listAvg (l : List ℚ) : ℚ := l.sum / (l.length : ℚ)

/-- `new Date(dateString).getDay()` for an epoch-day number:
1970-01-01 was a Thursday (`getDay = 4`). -/
def getDay (d : ℤ) : ℤ := (d + 4) % 7

/-- `flight-analyzer.ts` `isWeekend` (lines 172-176):
`day === 0 || day === 6`. -/
def isWeekend (d : ℤ) : Bool := getDay d == 0 || getDay d == 6

/-- JS `xs.reduce((min, current) => current.price < min.price ? current : min)`
on the non-empty list `x :: xs`. -/
def reduceMinBy {α : Type} (price : α → ℚ) (x : α) (xs : List α) : α :=
  xs.foldl (fun m c => if price c < price m then c else m) x

/-- JS `xs.reduce((max, current) => current.price > max.price ? current : max)`
on the non-empty list `x :: xs`. -/
def reduceMaxBy {α : Type} (price : α → ℚ) (x : α) (xs : List α) : α :=
  xs.foldl (fun m c => if price c > price m then c else m) x

/-- JS `[...xs].sort((a, b) => new Date(a.date).getTime() - new Date(b.date).getTime())`:
a stable ascending sort on the date field. -/
def sortByDate {α : Type} (date : α → ℤ) (l : List α) : List α :=
  l.mergeSort (fun a b => decide (date a ≤ date b))

/-- JS `xs.sort((a, b) => a - b)`: stable ascending sort of plain numbers. -/
def jsSortAsc (l : List ℚ) : List ℚ :=
  l.mergeSort (fun a b => decide (a ≤ b))

/-- `flight-analyzer.ts` `calculatePriceTrend` (lines 147-165), applied to
the price column of the date-sorted list: ordinary least-squares slope of
the prices against the index positions `0..n-1`, normalized by the mean
price.  Returns 0 for fewer than two points. -/
def calculatePriceTrend (ys : List ℚ) : ℚ :=
  if ys.length < 2 then 0
  else
    let n : ℚ := ys.length
    let xValues := (List.range ys.length).map (fun i => (i : ℚ))
    let sumX := xValues.sum
    let sumY := ys.sum
    let sumXY := ((xValues.zip ys).map (fun p => p.1 * p.2)).sum
    let sumX2 := (xValues.map (fun x => x * x)).sum
    let slope := (n * sumXY - sumX * sumY) / (n * sumX2 - sumX * sumX)
    let avgPrice := sumY / n
    slope / avgPrice

/-- `FlightItinerary` from `types/flight.ts`, reduced to the fields the
analyzed code reads: its identity and `price.amount`. -/
structure FlightItinerary where
  id : String
  priceAmount : ℚ
deriving DecidableEq

/-- `FlightSearchResponse`, reduced to its `itineraries` list. -/
structure FlightSearchResponse where
  itineraries : List FlightItinerary
deriving DecidableEq

/-- One entry of the `searchResults` array consumed by
`analyzePricesAcrossDates`: `{ date, results }`. -/
structure DateResult where
  date : ℤ
  results : FlightSearchResponse
deriving DecidableEq

/-- One entry of the `monthlyResults` array consumed by
`analyzeMonthlyFlightData`: `{ date, source, results, cabinClass }`. -/
structure MonthlyResult where
  date : ℤ
  source : String
  results : FlightSearchResponse
  cabinClass : String
deriving DecidableEq

/-- A `{ date, price }` pair as built inside `analyzePricesAcrossDates`. -/
structure MultiPricePoint where
  date : ℤ
  price : ℚ
deriving DecidableEq

/-- A `{ date, price, source, cabinClass }` entry of the `allPrices` array
built inside `analyzeMonthlyFlightData`. -/
structure PricePoint where
  date : ℤ
  price : ℚ
  source : String
  cabinClass : String
deriving DecidableEq

/-- The advisory strings pushed by `generateRecommendations`
(`flight-analyzer.ts` lines 69-140), one constructor per push site,
in source order, carrying the interpolated data:
* `dealAlert date pct` — "Great deal found! date is pct% below average price."
* `overpricedDate date pct` — "date is pct% above average - consider avoiding this date."
* `trendUp` / `trendDown` — the two trend notes (constant text).
* `weekendMoreExpensive` — "Weekend flights are significantly more expensive..."
* `manyDates` — the `prices.length >= 7` note.
* `priceVariation` — "Significant price variation detected..." -/
inductive MultiRec where
  | dealAlert (date : ℤ) (pct : ℤ)
  | overpricedDate (date : ℤ) (pct : ℤ)
  | trendUp
  | trendDown
  | weekendMoreExpensive
  | manyDates
  | priceVariation
deriving DecidableEq

/-- The advisory strings pushed by `generateMonthlyRecommendations`
(`flight-analyzer.ts` lines 288-386), one constructor per push site, in
source order, carrying the interpolated data. -/
inductive MonthlyRec where
  | dealAlert (date : ℤ) (pct : ℤ) (source : String)
  | overpricedDate (date : ℤ) (pct : ℤ)
  | bestSource (source : String) (pct : ℤ)
  | weekendExpensive (premium : ℤ)
  | weekendCheaper (premiumAbs : ℤ)
  | trendUp
  | trendDown
  | comprehensive
  | highVariation
deriving DecidableEq

/-- `generateRecommendations` (`flight-analyzer.ts` lines 69-140).  The
sequential `recommendations.push` calls become list concatenation of the
conditional singleton blocks, in source order. -/
def generateRecommendations (prices : List MultiPricePoint)
    (cheapest mostExpensive : MultiPricePoint)
    (averagePrice priceRange : ℚ) : List MultiRec :=
  (if cheapest.price < averagePrice * 0.8 then
    [.dealAlert cheapest.date (jround ((1 - cheapest.price / averagePrice) * 100))]
   else [])
  ++ (if mostExpensive.price > averagePrice * 1.3 then
    [.overpricedDate mostExpensive.date (jround ((mostExpensive.price / averagePrice - 1) * 100))]
   else [])
  ++ (let priceTrend := calculatePriceTrend ((sortByDate (·.date) prices).map (·.price))
      if priceTrend > 0.1 then [.trendUp]
      else if priceTrend < -0.1 then [.trendDown]
      else [])
  ++ (let weekendPrices := prices.filter (fun p => isWeekend p.date)
      let weekdayPrices := prices.filter (fun p => !(isWeekend p.date))
      if weekendPrices.length > 0 ∧ weekdayPrices.length > 0 ∧
          listAvg (weekendPrices.map (·.price)) > listAvg (weekdayPrices.map (·.price)) * 1.2
      then [.weekendMoreExpensive] else [])
  ++ (if prices.length ≥ 7 then [.manyDates] else [])
  ++ (if priceRange > averagePrice * 0.5 then [.priceVariation] else [])

/-- The `PriceAnalysis` object returned by `analyzePricesAcrossDates`. -/
structure PriceAnalysis where
  cheapestDate : ℤ
  cheapestPrice : ℚ
  mostExpensiveDate : ℤ
  mostExpensivePrice : ℚ
  averagePrice : ℤ
  priceRange : ℚ
  recommendations : List MultiRec
deriving DecidableEq

/-- The per-entry reduction done by `analyzePricesAcrossDates` lines 23-28:
`{ date, price: Math.min(...results.itineraries.map(it => it.price.amount)) }`. -/
def toMultiPoint (e : DateResult) : MultiPricePoint :=
  ⟨e.date, jsMinPrice (e.results.itineraries.map (·.priceAmount))⟩

/-- Body of `analyzePricesAcrossDates` (lines 23-58) after the empty-input
guard, on the non-empty price list `p0 :: rest`. -/
def mkPriceAnalysis (p0 : MultiPricePoint) (rest : List MultiPricePoint) : PriceAnalysis :=
  let prices := p0 :: rest
  let cheapest := reduceMinBy (·.price) p0 rest
  let mostExpensive := reduceMaxBy (·.price) p0 rest
  let averagePrice := listAvg (prices.map (·.price))
  let priceRange := mostExpensive.price - cheapest.price
  { cheapestDate := cheapest.date
    cheapestPrice := cheapest.price
    mostExpensiveDate := mostExpensive.date
    mostExpensivePrice := mostExpensive.price
    averagePrice := jround averagePrice
    priceRange := priceRange
    recommendations := generateRecommendations prices cheapest mostExpensive averagePrice priceRange }

/-- `analyzePricesAcrossDates` (`flight-analyzer.ts` lines 16-59). -/
def analyzePricesAcrossDates (searchResults : List DateResult) :
    Except String PriceAnalysis :=
  match searchResults with
  | [] => .error "No search results to analyze"
  | r :: rs => .ok (mkPriceAnalysis (toMultiPoint r) (rs.map toMultiPoint))

/-- The `weekendAnalysis` object of `analyzeMonthlyFlightData`
(lines 248-254). -/
structure WeekendAnalysis where
  avgWeekendPrice : ℤ
  avgWeekdayPrice : ℤ
  weekendPremium : ℤ
  weekendDates : List ℤ
  weekdayDates : List ℤ
deriving DecidableEq

/-- The object returned by `calculatePriceDistribution` (lines 425-446).
The source stores `standardDeviation = Math.sqrt(avgSquaredDiff)`; to keep
the embedding computable over ℚ we store `avgSquaredDiff` itself (the
square of the stored value).  `Math.sqrt` is injective on non-negative
numbers, so two distributions agree on `standardDeviation` exactly when
they agree on this field. -/
structure PriceDistribution where
  min : ℚ
  q25 : ℚ
  median : ℚ
  q75 : ℚ
  max : ℚ
  standardDeviationSq : ℚ
deriving DecidableEq

/-- The object returned by `calculateMonthlyTrend` (lines 462-482). -/
structure TrendAnalysis where
  trend : ℚ
  trendStrength : ℚ
  trendDirection : String
  volatility : ℚ
deriving DecidableEq

/-- The analysis object returned by `analyzeMonthlyFlightData`
(lines 268-283).  Every field of the source object literal is present; in
particular `weekendAnalysis` is always a field of the result, holding JS
`null` (here `none`) when the weekend/weekday split was not computed. -/
structure MonthlyAnalysis where
  cheapestDate : ℤ
  cheapestPrice : ℚ
  cheapestSource : String
  mostExpensiveDate : ℤ
  mostExpensivePrice : ℚ
  mostExpensiveSource : String
  averagePrice : ℤ
  priceRange : ℚ
  totalDates : ℕ
  weekendAnalysis : Option WeekendAnalysis
  recommendations : List MonthlyRec
  priceDistribution : PriceDistribution
  trendAnalysis : TrendAnalysis
deriving DecidableEq

/-- The `allPrices` array built by `analyzeMonthlyFlightData` lines 197-212:
one entry per input element whose `itineraries` list is non-empty, reduced
to its minimum itinerary price. -/
def allPricesOf (monthlyResults : List MonthlyResult) : List PricePoint :=
  monthlyResults.filterMap (fun e =>
    if e.results.itineraries.length > 0 then
      some ⟨e.date, jsMinPrice (e.results.itineraries.map (·.priceAmount)),
            e.source, e.cabinClass⟩
    else none)

/-- `groupPricesBySource` (lines 391-420): a JS object keyed by source,
modelled as an association list in key-insertion order (the iteration
order of `Object.entries`). -/
def groupPricesBySource (allPrices : List PricePoint) :
    List (String × List PricePoint) :=
  allPrices.foldl (fun groups p =>
    if groups.any (fun g => g.1 == p.source) then
      groups.map (fun g => if g.1 == p.source then (g.1, g.2 ++ [p]) else g)
    else groups ++ [(p.source, [p])]) []

/-- The `bestSource` fold of `generateMonthlyRecommendations`
(lines 328-335).  The JS initial accumulator is
`{ source: "", avgPrice: Infinity }`; every group average is finite and so
strictly below `Infinity`, which the option value `none` models: the first
group always replaces the initial accumulator. -/
def bestSourceOf (allPrices : List PricePoint) : Option (String × ℚ) :=
  (groupPricesBySource allPrices).foldl (fun best g =>
    let avgP := listAvg (g.2.map (·.price))
    match best with
    | none => some (g.1, avgP)
    | some b => if avgP < b.2 then some (g.1, avgP) else some b) none

/-- `generateMonthlyRecommendations` (`flight-analyzer.ts` lines 288-386).
The sequential push calls become list concatenation of the conditional
singleton blocks, in source order. -/
def generateMonthlyRecommendations (allPrices : List PricePoint)
    (cheapest mostExpensive : PricePoint) (averagePrice priceRange : ℚ)
    (weekendAnalysis : Option WeekendAnalysis) : List MonthlyRec :=
  (if cheapest.price < averagePrice * 0.8 then
    [.dealAlert cheapest.date (jround ((1 - cheapest.price / averagePrice) * 100)) cheapest.source]
   else [])
  ++ (if mostExpensive.price > averagePrice * 1.3 then
    [.overpricedDate mostExpensive.date (jround ((mostExpensive.price / averagePrice - 1) * 100))]
   else [])
  ++ (match bestSourceOf allPrices with
      | some b =>
        if b.1 ≠ "" ∧ b.2 < averagePrice * 0.95 then
          [.bestSource b.1 (jround ((1 - b.2 / averagePrice) * 100))]
        else []
      | none => [])
  ++ (match weekendAnalysis with
      | some w =>
        if w.weekendPremium > 20 then [.weekendExpensive w.weekendPremium]
        else if w.weekendPremium < -10 then [.weekendCheaper |w.weekendPremium|]
        else []
      | none => [])
  ++ (let priceTrend := calculatePriceTrend ((sortByDate (·.date) allPrices).map (·.price))
      if priceTrend > 0.15 then [.trendUp]
      else if priceTrend < -0.15 then [.trendDown]
      else [])
  ++ (if allPrices.length ≥ 20 then [.comprehensive] else [])
  ++ (if priceRange > averagePrice * 0.6 then [.highVariation] else [])

/-- `calculateStandardDeviation` (lines 451-457) without the final
`Math.sqrt` (see `PriceDistribution.standardDeviationSq`): the population
mean of squared deviations from the mean. -/
def calculateStandardDeviationSq (prices : List ℚ) : ℚ :=
  let mean := listAvg prices
  let squaredDiffs := prices.map (fun price => (price - mean) ^ 2)
  listAvg squaredDiffs

/-- `calculatePriceDistribution` (lines 425-446): quartiles by index
`Math.floor(n * q)` into the ascending sort of the prices.  `n * 0.25`,
`n * 0.5` and `n * 0.75` are exact in binary floating point, so the JS
indices are the natural-number divisions `n / 4`, `n / 2` and `3 * n / 4`. -/
def calculatePriceDistribution (allPrices : List PricePoint) : PriceDistribution :=
  let prices := jsSortAsc (allPrices.map (·.price))
  { min := prices.getD 0 0
    q25 := prices.getD (prices.length / 4) 0
    median := prices.getD (prices.length / 2) 0
    q75 := prices.getD (3 * prices.length / 4) 0
    max := prices.getD (prices.length - 1) 0
    standardDeviationSq := calculateStandardDeviationSq prices }

/-- `calculatePriceVolatility` (lines 487-512): mean absolute difference of
chronologically adjacent prices, normalized by the mean price; 0 for fewer
than two points. -/
def calculatePriceVolatility (sortedPrices : List PricePoint) : ℚ :=
  if sortedPrices.length < 2 then 0
  else
    let priceChanges := (sortedPrices.zip sortedPrices.tail).map
      (fun p => |p.2.price - p.1.price|)
    let avgChange := listAvg priceChanges
    let avgPrice := listAvg (sortedPrices.map (·.price))
    avgChange / avgPrice

/-- `calculateMonthlyTrend` (lines 462-482). -/
def calculateMonthlyTrend (allPrices : List PricePoint) : TrendAnalysis :=
  let sortedPrices := sortByDate (·.date) allPrices
  let trend := calculatePriceTrend (sortedPrices.map (·.price))
  { trend := trend
    trendStrength := |trend|
    trendDirection :=
      if trend > 0 then "increasing" else if trend < 0 then "decreasing" else "stable"
    volatility := calculatePriceVolatility sortedPrices }

/-- Body of `analyzeMonthlyFlightData` (lines 218-283) after the two error
guards, on the non-empty `allPrices` list `p0 :: rest`. -/
def mkMonthlyAnalysis (includeWeekendAnalysis : Bool)
    (p0 : PricePoint) (rest : List PricePoint) : MonthlyAnalysis :=
  let allPrices := p0 :: rest
  let cheapest := reduceMinBy (·.price) p0 rest
  let mostExpensive := reduceMaxBy (·.price) p0 rest
  let averagePrice := listAvg (allPrices.map (·.price))
  let priceRange := mostExpensive.price - cheapest.price
  let weekendAnalysis : Option WeekendAnalysis :=
    if includeWeekendAnalysis then
      let weekendPrices := allPrices.filter (fun p => isWeekend p.date)
      let weekdayPrices := allPrices.filter (fun p => !(isWeekend p.date))
      if weekendPrices.length > 0 ∧ weekdayPrices.length > 0 then
        let avgWeekendPrice := listAvg (weekendPrices.map (·.price))
        let avgWeekdayPrice := listAvg (weekdayPrices.map (·.price))
        some { avgWeekendPrice := jround avgWeekendPrice
               avgWeekdayPrice := jround avgWeekdayPrice
               weekendPremium := jround ((avgWeekendPrice - avgWeekdayPrice) / avgWeekdayPrice * 100)
               weekendDates := weekendPrices.map (·.date)
               weekdayDates := weekdayPrices.map (·.date) }
      else none
    else none
  { cheapestDate := cheapest.date
    cheapestPrice := cheapest.price
    cheapestSource := cheapest.source
    mostExpensiveDate := mostExpensive.date
    mostExpensivePrice := mostExpensive.price
    mostExpensiveSource := mostExpensive.source
    averagePrice := jround averagePrice
    priceRange := priceRange
    totalDates := allPrices.length
    weekendAnalysis := weekendAnalysis
    recommendations :=
      generateMonthlyRecommendations allPrices cheapest mostExpensive
        averagePrice priceRange weekendAnalysis
    priceDistribution := calculatePriceDistribution allPrices
    trendAnalysis := calculateMonthlyTrend allPrices }

/-- `analyzeMonthlyFlightData` (`flight-analyzer.ts` lines 184-283). -/
def analyzeMonthlyFlightData (monthlyResults : List MonthlyResult)
    (includeWeekendAnalysis : Bool) : Except String MonthlyAnalysis :=
  if monthlyResults.length = 0 then .error "No monthly results to analyze"
  else
    match allPricesOf monthlyResults with
    | [] => .error "No valid prices found in monthly results"
    | p0 :: rest => .ok (mkMonthlyAnalysis includeWeekendAnalysis p0 rest)

/-- `FlightSearchHelper.searchMultipleDates`
(`helpers/flight-search-helper.ts` lines 32-77).  The nested
`for date / for source` loops pushing into a shared array become
`flatMap`/`filterMap`; a connector that throws is `.error` and is skipped,
a successful response with an empty itinerary list is also skipped
(`results.itineraries.length > 0` guard at line 63). -/
def searchMultipleDates (dates : List ℤ) (sources : List String)
    (connector : ℤ → String → Except String FlightSearchResponse) :
    Except String (List DateResult) :=
  let allResults := dates.flatMap (fun date =>
    sources.filterMap (fun source =>
      match connector date source with
      | .error _ => none
      | .ok results =>
        if results.itineraries.length > 0 then some ⟨date, results⟩ else none))
  if allResults.length = 0 then
    .error "No flights found for any of the specified dates"
  else .ok allResults

/-- The collection loop of `handleSearchMultipleDates`
(`index.ts` lines 319-357).  Unlike the helper, it pushes every successful
response, with no `itineraries.length > 0` guard (line 348): only thrown
errors are skipped. -/
def handleSearchMultipleDatesCollect (dates : List ℤ) (sources : List String)
    (connector : ℤ → String → Except String FlightSearchResponse) :
    Except String (List DateResult) :=
  let allResults := dates.flatMap (fun date =>
    sources.filterMap (fun source =>
      match connector date source with
      | .error _ => none
      | .ok results => some ⟨date, results⟩))
  if allResults.length = 0 then
    .error "No flights found for any of the specified dates"
  else .ok allResults

/-- One entry of the Top-N deal list. -/
structure TopRecommendation where
  date : ℤ
  source : String
  price : ℚ
  itinerary : FlightItinerary
deriving DecidableEq

/-- `getTopFlightRecommendations` (`index.ts` lines 654-688): for each
result with a non-empty itinerary list, reduce to the cheapest itinerary
(`current.price.amount < min.price.amount ? current : min`), then sort by
price ascending and keep the first five. -/
def getTopFlightRecommendations (allResults : List MonthlyResult) :
    List TopRecommendation :=
  let recommendations := allResults.flatMap (fun result =>
    match result.results.itineraries with
    | [] => []
    | it0 :: its =>
      let cheapestItinerary :=
        its.foldl (fun m c => if c.priceAmount < m.priceAmount then c else m) it0
      [⟨result.date, result.source, cheapestItinerary.priceAmount, cheapestItinerary⟩])
  (recommendations.mergeSort (fun a b => decide (a.price ≤ b.price))).take 5

/-- `RecommendationHelper.getTopFlightRecommendations`
(`helpers/recommendation-helper.ts` lines 7-41).  Its reduce is
`current.price.amount < min.price.amount ? current : current` — both
branches return `current`, so the fold keeps the LAST itinerary of each
result, not the cheapest. -/
def getTopFlightRecommendationsHelper (allResults : List MonthlyResult) :
    List TopRecommendation :=
  let recommendations := allResults.flatMap (fun result =>
    match result.results.itineraries with
    | [] => []
    | it0 :: its =>
      let cheapestItinerary :=
        its.foldl (fun m c => if c.priceAmount < m.priceAmount then c else c) it0
      [⟨result.date, result.source, cheapestItinerary.priceAmount, cheapestItinerary⟩])
  (recommendations.mergeSort (fun a b => decide (a.price ≤ b.price))).take 5

/-- The multiset of (date, price) quotes carried by a monthly input: one
pair per itinerary of every entry. -/
def specQuotes (monthlyResults : List MonthlyResult) : List (ℤ × ℚ) :=
  monthlyResults.flatMap (fun e =>
    e.results.itineraries.map (fun it => (e.date, it.priceAmount)))

/-- The spec's per-date minimum, `min(price | Quote.date = d)`, written
from the spec's words for comparison with what the code computes. -/
def specPerDateMin (monthlyResults : List MonthlyResult) (d : ℤ) : ℚ :=
  jsMinPrice (((specQuotes monthlyResults).filter (fun q => q.1 == d)).map (·.2))

/-- Position of each `MultiRec` block in the source order of
`generateRecommendations`: deal alert, overpriced date, trend, weekend,
many-dates, price variation. -/
def multiRecRank : MultiRec → ℕ
  | .dealAlert _ _ => 0
  | .overpricedDate _ _ => 1
  | .trendUp => 2
  | .trendDown => 2
  | .weekendMoreExpensive => 3
  | .manyDates => 4
  | .priceVariation => 5

/-- Position of each `MonthlyRec` block in the source order of
`generateMonthlyRecommendations`: deal alert, overpriced date, best
source, weekend, trend, comprehensive (volume), high variation. -/
def monthlyRecRank : MonthlyRec → ℕ
  | .dealAlert _ _ _ => 0
  | .overpricedDate _ _ => 1
  | .bestSource _ _ => 2
  | .weekendExpensive _ => 3
  | .weekendCheaper _ => 3
  | .trendUp => 4
  | .trendDown => 4
  | .comprehensive => 5
  | .highVariation => 6


/-! ## Lemmas about the JS reduce folds and sorting -/

theorem reduceMinBy_spec {α : Type} (price : α → ℚ) (x : α) (xs : List α) :
    (∀ y ∈ x :: xs, price (reduceMinBy price x xs) ≤ price y) ∧
    ∃ l₁ l₂, x :: xs = l₁ ++ reduceMinBy price x xs :: l₂ ∧
      ∀ y ∈ l₁, price (reduceMinBy price x xs) < price y := by
  induction xs generalizing x with
  | nil =>
    exact ⟨by simp [reduceMinBy], [], [], by simp [reduceMinBy], by simp⟩
  | cons b t ih =>
    have hstep : reduceMinBy price x (b :: t)
        = reduceMinBy price (if price b < price x then b else x) t := rfl
    by_cases hb : price b < price x
    · rw [hstep, if_pos hb]
      obtain ⟨hle, l₁, l₂, hsplit, hgt⟩ := ih b
      have hrb : price (reduceMinBy price b t) ≤ price b := hle b (by simp)
      refine ⟨?_, x :: l₁, l₂, ?_, ?_⟩
      · intro y hy
        rcases List.mem_cons.mp hy with h | h
        · rw [h]; exact le_of_lt (lt_of_le_of_lt hrb hb)
        · exact hle y h
      · simp only [List.cons_append, ← hsplit]
      · intro y hy
        rcases List.mem_cons.mp hy with h | h
        · rw [h]; exact lt_of_le_of_lt hrb hb
        · exact hgt y h
    · rw [hstep, if_neg hb]
      push_neg at hb
      obtain ⟨hle, l₁, l₂, hsplit, hgt⟩ := ih x
      have hrx : price (reduceMinBy price x t) ≤ price x := hle x (by simp)
      have hmem : ∀ y ∈ x :: b :: t, price (reduceMinBy price x t) ≤ price y := by
        intro y hy
        rcases List.mem_cons.mp hy with h | h
        · rw [h]; exact hrx
        · rcases List.mem_cons.mp h with h2 | h2
          · rw [h2]; exact le_trans hrx hb
          · exact hle y (List.mem_cons_of_mem x h2)
      rcases l₁ with _ | ⟨c, l₁t⟩
      · simp only [List.nil_append, List.cons.injEq] at hsplit
        refine ⟨hmem, [], b :: t, ?_, by simp⟩
        rw [List.nil_append, ← hsplit.1]
      · simp only [List.cons_append, List.cons.injEq] at hsplit
        obtain ⟨hcx, ht⟩ := hsplit
        have hrltx : price (reduceMinBy price x t) < price x := by
          have := hgt c (by simp)
          rwa [← hcx] at this
        refine ⟨hmem, x :: b :: l₁t, l₂, ?_, ?_⟩
        · simp only [List.cons_append]
          exact congrArg (fun l => x :: b :: l) ht
        · intro y hy
          rcases List.mem_cons.mp hy with h | h
          · rw [h]; exact hrltx
          · rcases List.mem_cons.mp h with h2 | h2
            · rw [h2]; exact lt_of_lt_of_le hrltx hb
            · exact hgt y (List.mem_cons_of_mem c h2)

theorem reduceMaxBy_spec {α : Type} (price : α → ℚ) (x : α) (xs : List α) :
    (∀ y ∈ x :: xs, price y ≤ price (reduceMaxBy price x xs)) ∧
    ∃ l₁ l₂, x :: xs = l₁ ++ reduceMaxBy price x xs :: l₂ ∧
      ∀ y ∈ l₁, price y < price (reduceMaxBy price x xs) := by
  induction xs generalizing x with
  | nil =>
    exact ⟨by simp [reduceMaxBy], [], [], by simp [reduceMaxBy], by simp⟩
  | cons b t ih =>
    have hstep : reduceMaxBy price x (b :: t)
        = reduceMaxBy price (if price b > price x then b else x) t := rfl
    by_cases hb : price b > price x
    · rw [hstep, if_pos hb]
      obtain ⟨hle, l₁, l₂, hsplit, hgt⟩ := ih b
      have hrb : price b ≤ price (reduceMaxBy price b t) := hle b (by simp)
      refine ⟨?_, x :: l₁, l₂, ?_, ?_⟩
      · intro y hy
        rcases List.mem_cons.mp hy with h | h
        · rw [h]; exact le_of_lt (lt_of_lt_of_le hb hrb)
        · exact hle y h
      · simp only [List.cons_append, ← hsplit]
      · intro y hy
        rcases List.mem_cons.mp hy with h | h
        · rw [h]; exact lt_of_lt_of_le hb hrb
        · exact hgt y h
    · rw [hstep, if_neg hb]
      push_neg at hb
      obtain ⟨hle, l₁, l₂, hsplit, hgt⟩ := ih x
      have hrx : price x ≤ price (reduceMaxBy price x t) := hle x (by simp)
      have hmem : ∀ y ∈ x :: b :: t, price y ≤ price (reduceMaxBy price x t) := by
        intro y hy
        rcases List.mem_cons.mp hy with h | h
        · rw [h]; exact hrx
        · rcases List.mem_cons.mp h with h2 | h2
          · rw [h2]; exact le_trans hb hrx
          · exact hle y (List.mem_cons_of_mem x h2)
      rcases l₁ with _ | ⟨c, l₁t⟩
      · simp only [List.nil_append, List.cons.injEq] at hsplit
        refine ⟨hmem, [], b :: t, ?_, by simp⟩
        rw [List.nil_append, ← hsplit.1]
      · simp only [List.cons_append, List.cons.injEq] at hsplit
        obtain ⟨hcx, ht⟩ := hsplit
        have hrltx : price x < price (reduceMaxBy price x t) := by
          have := hgt c (by simp)
          rwa [← hcx] at this
        refine ⟨hmem, x :: b :: l₁t, l₂, ?_, ?_⟩
        · simp only [List.cons_append]
          exact congrArg (fun l => x :: b :: l) ht
        · intro y hy
          rcases List.mem_cons.mp hy with h | h
          · rw [h]; exact hrltx
          · rcases List.mem_cons.mp h with h2 | h2
            · rw [h2]; exact lt_of_le_of_lt hb hrltx
            · exact hgt y (List.mem_cons_of_mem c h2)

theorem reduceMinBy_mem {α : Type} (price : α → ℚ) (x : α) (xs : List α) :
    reduceMinBy price x xs ∈ x :: xs := by
  obtain ⟨-, l₁, l₂, hsplit, -⟩ := reduceMinBy_spec price x xs
  rw [hsplit]
  exact List.mem_append.mpr (Or.inr (by simp))

theorem reduceMaxBy_mem {α : Type} (price : α → ℚ) (x : α) (xs : List α) :
    reduceMaxBy price x xs ∈ x :: xs := by
  obtain ⟨-, l₁, l₂, hsplit, -⟩ := reduceMaxBy_spec price x xs
  rw [hsplit]
  exact List.mem_append.mpr (Or.inr (by simp))

theorem reduceMinBy_price_eq_of_perm {α : Type} (price : α → ℚ) (x y : α)
    (xs ys : List α) (h : (x :: xs).Perm (y :: ys)) :
    price (reduceMinBy price x xs) = price (reduceMinBy price y ys) := by
  obtain ⟨hle₁, -⟩ := reduceMinBy_spec price x xs
  obtain ⟨hle₂, -⟩ := reduceMinBy_spec price y ys
  exact le_antisymm
    (hle₁ _ (h.mem_iff.mpr (reduceMinBy_mem price y ys)))
    (hle₂ _ (h.mem_iff.mp (reduceMinBy_mem price x xs)))

theorem reduceMaxBy_price_eq_of_perm {α : Type} (price : α → ℚ) (x y : α)
    (xs ys : List α) (h : (x :: xs).Perm (y :: ys)) :
    price (reduceMaxBy price x xs) = price (reduceMaxBy price y ys) := by
  obtain ⟨hle₁, -⟩ := reduceMaxBy_spec price x xs
  obtain ⟨hle₂, -⟩ := reduceMaxBy_spec price y ys
  exact le_antisymm
    (hle₂ _ (h.mem_iff.mp (reduceMaxBy_mem price x xs)))
    (hle₁ _ (h.mem_iff.mpr (reduceMaxBy_mem price y ys)))

theorem reduceMinBy_price_eq_jsMinPrice {α : Type} (price : α → ℚ) (x : α)
    (xs : List α) :
    price (reduceMinBy price x xs) = jsMinPrice ((x :: xs).map price) := by
  induction xs generalizing x with
  | nil => simp [reduceMinBy, jsMinPrice]
  | cons b t ih =>
    have hstep : reduceMinBy price x (b :: t)
        = reduceMinBy price (if price b < price x then b else x) t := rfl
    have hpif : price (if price b < price x then b else x)
        = min (price x) (price b) := by
      by_cases hb : price b < price x
      · rw [if_pos hb, min_eq_right (le_of_lt hb)]
      · rw [if_neg hb, min_eq_left (le_of_not_lt hb)]
    rw [hstep, ih]
    simp only [jsMinPrice, List.map_cons, List.foldl_cons, hpif]

theorem listAvg_eq_of_perm {l₁ l₂ : List ℚ} (h : l₁.Perm l₂) :
    listAvg l₁ = listAvg l₂ := by
  unfold listAvg
  rw [h.sum_eq, h.length_eq]

theorem jsSortAsc_sorted (l : List ℚ) : List.Sorted (· ≤ ·) (jsSortAsc l) := by
  have h := @List.sorted_mergeSort ℚ (fun a b => decide (a ≤ b))
    (fun a b c hab hbc => by
      simp only [decide_eq_true_eq] at *
      exact le_trans hab hbc)
    (fun a b => by
      simp only [Bool.or_eq_true, decide_eq_true_eq]
      exact le_total a b) l
  exact h.imp (fun hab => by simpa using hab)

theorem jsSortAsc_eq_of_perm {l₁ l₂ : List ℚ} (h : l₁.Perm l₂) :
    jsSortAsc l₁ = jsSortAsc l₂ :=
  List.eq_of_perm_of_sorted
    ((List.mergeSort_perm l₁ _).trans (h.trans (List.mergeSort_perm l₂ _).symm))
    (jsSortAsc_sorted l₁) (jsSortAsc_sorted l₂)

/-! ## C9 -/

/-- C9: `analyze` invoked with an empty quote sequence fails with the
empty-input error in both entry points: `analyzePricesAcrossDates` throws
"No search results to analyze" and `analyzeMonthlyFlightData` throws
"No monthly results to analyze" (for either value of
`includeWeekendAnalysis`); neither returns statistics for zero quotes. -/
theorem analyze_empty_input_fails :
    analyzePricesAcrossDates [] = .error "No search results to analyze" ∧
    analyzeMonthlyFlightData [] true = .error "No monthly results to analyze" ∧
    analyzeMonthlyFlightData [] false = .error "No monthly results to analyze" :=
  ⟨rfl, rfl, rfl⟩

/-! ## C4 -/

/-- The failing input for C4: a single (date, source) result carrying two
itineraries, the cheaper one first. -/
def topRecInput : List MonthlyResult :=
  [⟨0, "skyscanner", ⟨[⟨"a", 100⟩, ⟨"b", 200⟩]⟩, "economy"⟩]

/-- C4: the helper copy `RecommendationHelper.getTopFlightRecommendations`
returns the LAST itinerary of each result (price 200 here) because its
reduce discards the comparison (`? current : current`), while the claim —
and the `index.ts` copy of the same function, which this theorem also
evaluates — requires the minimum `price.amount` (100) and the
corresponding cheapest itinerary. -/
theorem recommendation_helper_top_flight_bug :
    getTopFlightRecommendationsHelper topRecInput
      = [⟨0, "skyscanner", 200, ⟨"b", 200⟩⟩] ∧
    getTopFlightRecommendations topRecInput
      = [⟨0, "skyscanner", 100, ⟨"a", 100⟩⟩] ∧
    jsMinPrice (([⟨"a", 100⟩, ⟨"b", 200⟩] : List FlightItinerary).map (·.priceAmount))
      = 100 := by
  refine ⟨?_, ?_, ?_⟩ <;>
    norm_num [getTopFlightRecommendationsHelper, getTopFlightRecommendations,
      topRecInput, jsMinPrice, List.mergeSort_singleton]

/-! ## C2 -/

/-- A connector whose every call succeeds with an empty itinerary list. -/
def emptyOkConnector : ℤ → String → Except String FlightSearchResponse :=
  fun _ _ => .ok ⟨[]⟩

/-- A connector whose every call throws. -/
def throwingConnector : ℤ → String → Except String FlightSearchResponse :=
  fun _ _ => .error "Request failed"

/-- C2 counterexample: on the same input — one date, one source, a
connector returning an empty itinerary list — the `index.ts`
`handleSearchMultipleDates` collection loop succeeds, retaining the empty
response (zero quotes collected), while the claim requires an empty result
to be skipped and the collection to fail; the helper
`searchMultipleDates`, by contrast, fails as the claim describes. -/
theorem handleSearchMultipleDates_succeeds_without_quotes :
    handleSearchMultipleDatesCollect [0] ["skyscanner"] emptyOkConnector
      = .ok [⟨0, ⟨[]⟩⟩] ∧
    searchMultipleDates [0] ["skyscanner"] emptyOkConnector
      = .error "No flights found for any of the specified dates" := by
  constructor <;> rfl

/-! ## C6 -/

/-- Two entries tied at price 100, the later date (5) first in input
order. -/
def tieInput : List DateResult :=
  [⟨5, ⟨[⟨"a", 100⟩]⟩⟩, ⟨3, ⟨[⟨"b", 100⟩]⟩⟩]

/-- C6 counterexample: with dates 5 and 3 tied at price 100 and date 5
first in the input sequence, `analyzePricesAcrossDates` reports date 5 as
both cheapest and most expensive — not the chronologically earliest date 3
that the claim requires. -/
theorem analyze_tie_not_earliest_date :
    Except.map (·.cheapestDate) (analyzePricesAcrossDates tieInput) = .ok 5 ∧
    Except.map (·.cheapestDate) (analyzePricesAcrossDates tieInput) ≠ .ok 3 ∧
    Except.map (·.mostExpensiveDate) (analyzePricesAcrossDates tieInput) = .ok 5 := by
  refine ⟨?_, ?_, ?_⟩ <;>
    norm_num [analyzePricesAcrossDates, mkPriceAnalysis, toMultiPoint,
      reduceMinBy, reduceMaxBy, jsMinPrice, Except.map, tieInput]

/-- Running `analyzeMonthlyFlightData` to its success case. -/
theorem analyzeMonthly_ok {l : List MonthlyResult} {incl : Bool} {p0 : PricePoint}
    {ps : List PricePoint} (hne : l ≠ []) (h : allPricesOf l = p0 :: ps) :
    analyzeMonthlyFlightData l incl = .ok (mkMonthlyAnalysis incl p0 ps) := by
  unfold analyzeMonthlyFlightData
  rw [if_neg (by simpa [List.length_eq_zero] using hne), h]

set_option maxHeartbeats 2000000 in
/-- C6 amended: in both analyzers, the reported cheapest (resp. most
expensive) entry is the FIRST entry in input order achieving the minimal
(resp. maximal) per-entry price — ties resolve to input position, not to
the chronologically earliest date.  For `analyzePricesAcrossDates` (on
inputs whose entries all carry at least one itinerary) this is the first
`{date, price}` point; for `analyzeMonthlyFlightData` it is the first
`allPrices` entry, whose date, price and source the analysis reports. -/
theorem analyze_tie_first_input_entry :
    (∀ (searchResults : List DateResult) (a : PriceAnalysis),
      (∀ r ∈ searchResults, r.results.itineraries ≠ []) →
      analyzePricesAcrossDates searchResults = .ok a →
      (∀ p ∈ searchResults.map toMultiPoint, a.cheapestPrice ≤ p.price) ∧
      (∃ l₁ l₂, searchResults.map toMultiPoint
          = l₁ ++ (⟨a.cheapestDate, a.cheapestPrice⟩ : MultiPricePoint) :: l₂ ∧
        ∀ p ∈ l₁, a.cheapestPrice < p.price) ∧
      (∀ p ∈ searchResults.map toMultiPoint, p.price ≤ a.mostExpensivePrice) ∧
      (∃ l₁ l₂, searchResults.map toMultiPoint
          = l₁ ++ (⟨a.mostExpensiveDate, a.mostExpensivePrice⟩ : MultiPricePoint) :: l₂ ∧
        ∀ p ∈ l₁, p.price < a.mostExpensivePrice)) ∧
    (∀ (monthlyResults : List MonthlyResult) (incl : Bool) (a : MonthlyAnalysis),
      analyzeMonthlyFlightData monthlyResults incl = .ok a →
      (∀ p ∈ allPricesOf monthlyResults, a.cheapestPrice ≤ p.price) ∧
      (∃ c l₁ l₂, allPricesOf monthlyResults
          = l₁ ++ (⟨a.cheapestDate, a.cheapestPrice, a.cheapestSource, c⟩ : PricePoint) :: l₂ ∧
        ∀ p ∈ l₁, a.cheapestPrice < p.price) ∧
      (∀ p ∈ allPricesOf monthlyResults, p.price ≤ a.mostExpensivePrice) ∧
      (∃ c l₁ l₂, allPricesOf monthlyResults
          = l₁ ++ (⟨a.mostExpensiveDate, a.mostExpensivePrice, a.mostExpensiveSource, c⟩ : PricePoint) :: l₂ ∧
        ∀ p ∈ l₁, p.price < a.mostExpensivePrice)) := by
  constructor
  · intro searchResults a hval h
    cases searchResults with
    | nil => exact absurd h (by simp [analyzePricesAcrossDates])
    | cons r rs =>
      have ha : a = mkPriceAnalysis (toMultiPoint r) (rs.map toMultiPoint) := by
        have h2 := h
        simp only [analyzePricesAcrossDates, Except.ok.injEq] at h2
        exact h2.symm
      subst ha
      obtain ⟨hminle, l₁, l₂, hsplit, hgt⟩ :=
        reduceMinBy_spec (·.price) (toMultiPoint r) (rs.map toMultiPoint)
      obtain ⟨hmaxle, m₁, m₂, hsplit2, hgt2⟩ :=
        reduceMaxBy_spec (·.price) (toMultiPoint r) (rs.map toMultiPoint)
      exact ⟨fun p hp => hminle p hp, ⟨l₁, l₂, hsplit, hgt⟩,
        fun p hp => hmaxle p hp, ⟨m₁, m₂, hsplit2, hgt2⟩⟩
  · intro monthlyResults incl a h
    have hlne : monthlyResults ≠ [] := by
      intro h0
      rw [h0] at h
      exact absurd h (by simp [analyzeMonthlyFlightData])
    rcases hap : allPricesOf monthlyResults with _ | ⟨p0, ps⟩
    · have herr : analyzeMonthlyFlightData monthlyResults incl
          = .error "No valid prices found in monthly results" := by
        unfold analyzeMonthlyFlightData
        rw [if_neg (by simpa [List.length_eq_zero] using hlne), hap]
      rw [herr] at h
      exact absurd h (by simp)
    · rw [analyzeMonthly_ok hlne hap] at h
      have ha : a = mkMonthlyAnalysis incl p0 ps := by
        have h2 := h
        simp only [Except.ok.injEq] at h2
        exact h2.symm
      subst ha
      simp only [mkMonthlyAnalysis]
      obtain ⟨hminle, l₁, l₂, hsplit, hgt⟩ := reduceMinBy_spec (·.price) p0 ps
      obtain ⟨hmaxle, m₁, m₂, hsplit2, hgt2⟩ := reduceMaxBy_spec (·.price) p0 ps
      exact ⟨fun p hp => hminle p hp,
        ⟨(reduceMinBy (·.price) p0 ps).cabinClass, l₁, l₂, hsplit, hgt⟩,
        fun p hp => hmaxle p hp,
        ⟨(reduceMaxBy (·.price) p0 ps).cabinClass, m₁, m₂, hsplit2, hgt2⟩⟩

/-- Concrete multi-date input for the C6 witness: distinct prices, so the
first achiever is unique. -/
def c6wInput : List DateResult := [⟨7, ⟨[⟨"a", 100⟩]⟩⟩, ⟨9, ⟨[⟨"b", 102⟩]⟩⟩]

/-- Concrete monthly input for the C6 witness: the same two dates and
prices, from two different sources. -/
def c6mInput : List MonthlyResult :=
  [⟨7, "skyscanner", ⟨[⟨"a", 100⟩]⟩, "economy"⟩,
   ⟨9, "google_flights", ⟨[⟨"b", 102⟩]⟩, "economy"⟩]

/-- The full monthly analysis of `c6mInput` with weekend analysis off. -/
def c6mAnalysis : MonthlyAnalysis :=
  { cheapestDate := 7
    cheapestPrice := 100
    cheapestSource := "skyscanner"
    mostExpensiveDate := 9
    mostExpensivePrice := 102
    mostExpensiveSource := "google_flights"
    averagePrice := 101
    priceRange := 2
    totalDates := 2
    weekendAnalysis := none
    recommendations := []
    priceDistribution := ⟨100, 100, 102, 102, 102, 1⟩
    trendAnalysis := ⟨2/101, 2/101, "increasing", 2/101⟩ }

/-- Witness for C6's amended theorem at concrete inputs, exercising both
the multi-date and the monthly part. -/
theorem analyze_tie_first_input_entry_witness :
    ((∀ p ∈ c6wInput.map toMultiPoint, (100 : ℚ) ≤ p.price) ∧
    (∃ l₁ l₂, c6wInput.map toMultiPoint
        = l₁ ++ (⟨7, 100⟩ : MultiPricePoint) :: l₂ ∧
      ∀ p ∈ l₁, (100 : ℚ) < p.price) ∧
    (∀ p ∈ c6wInput.map toMultiPoint, p.price ≤ (102 : ℚ)) ∧
    (∃ l₁ l₂, c6wInput.map toMultiPoint
        = l₁ ++ (⟨9, 102⟩ : MultiPricePoint) :: l₂ ∧
      ∀ p ∈ l₁, p.price < (102 : ℚ))) ∧
    ((∀ p ∈ allPricesOf c6mInput, (100 : ℚ) ≤ p.price) ∧
    (∃ c l₁ l₂, allPricesOf c6mInput
        = l₁ ++ (⟨7, 100, "skyscanner", c⟩ : PricePoint) :: l₂ ∧
      ∀ p ∈ l₁, (100 : ℚ) < p.price) ∧
    (∀ p ∈ allPricesOf c6mInput, p.price ≤ (102 : ℚ)) ∧
    (∃ c l₁ l₂, allPricesOf c6mInput
        = l₁ ++ (⟨9, 102, "google_flights", c⟩ : PricePoint) :: l₂ ∧
      ∀ p ∈ l₁, p.price < (102 : ℚ))) := by
  constructor
  · have h := analyze_tie_first_input_entry.1 c6wInput ⟨7, 100, 9, 102, 101, 2, []⟩
      (by simp [c6wInput]) (by
      norm_num [analyzePricesAcrossDates, mkPriceAnalysis, toMultiPoint, jsMinPrice,
        reduceMinBy, reduceMaxBy, c6wInput, listAvg, jround, generateRecommendations,
        calculatePriceTrend, sortByDate, isWeekend, getDay, List.mergeSort,
        List.range_succ])
    simpa using h
  · have h := analyze_tie_first_input_entry.2 c6mInput false c6mAnalysis (by
      norm_num [analyzeMonthlyFlightData, allPricesOf, mkMonthlyAnalysis, c6mInput,
        c6mAnalysis, jsMinPrice, reduceMinBy, reduceMaxBy, listAvg, jround,
        generateMonthlyRecommendations, bestSourceOf, groupPricesBySource,
        calculatePriceTrend, sortByDate, jsSortAsc, calculatePriceDistribution,
        calculateStandardDeviationSq, calculateMonthlyTrend, calculatePriceVolatility,
        isWeekend, getDay, List.mergeSort, List.range_succ, List.filterMap_cons,
        show ("skyscanner" : String) ≠ "google_flights" from by decide,
        show ("google_flights" : String) ≠ "skyscanner" from by decide])
    simpa [c6mAnalysis] using h

/-- Permutation invariance of `calculatePriceDistribution`. -/
theorem calculatePriceDistribution_eq_of_perm {l₁ l₂ : List PricePoint}
    (h : l₁.Perm l₂) :
    calculatePriceDistribution l₁ = calculatePriceDistribution l₂ := by
  unfold calculatePriceDistribution
  rw [jsSortAsc_eq_of_perm (h.map (·.price))]

/-- C3 amended: for every permutation of the input sequence, the numeric
statistics — cheapest price, most expensive price, rounded average, price
range, and (for the monthly analysis) the price distribution — are
identical; the reported cheapest/most-expensive DATE and SOURCE, however,
follow the first achiever in input order and may differ between
permutations when several entries tie (see the counterexample). -/
theorem analyze_perm_invariant :
    (∀ (l₁ l₂ : List MonthlyResult) (incl : Bool), l₁.Perm l₂ →
      Except.map (fun a => (a.cheapestPrice, a.mostExpensivePrice, a.averagePrice,
          a.priceRange, a.priceDistribution)) (analyzeMonthlyFlightData l₁ incl)
        = Except.map (fun a => (a.cheapestPrice, a.mostExpensivePrice, a.averagePrice,
          a.priceRange, a.priceDistribution)) (analyzeMonthlyFlightData l₂ incl)) ∧
    (∀ (m₁ m₂ : List DateResult), m₁.Perm m₂ →
      Except.map (fun a => (a.cheapestPrice, a.mostExpensivePrice, a.averagePrice,
          a.priceRange)) (analyzePricesAcrossDates m₁)
        = Except.map (fun a => (a.cheapestPrice, a.mostExpensivePrice, a.averagePrice,
          a.priceRange)) (analyzePricesAcrossDates m₂)) := by
  constructor
  · intro l₁ l₂ incl hp
    rcases hl1 : l₁ with _ | ⟨e, es⟩
    · have hl2 : l₂ = [] := List.perm_nil.mp (hl1 ▸ hp).symm
      rw [hl2]
    · rw [← hl1]
      have h1 : l₁ ≠ [] := by rw [hl1]; exact List.cons_ne_nil e es
      have h2 : l₂ ≠ [] := by
        intro hnil
        rw [hnil] at hp
        exact h1 (List.perm_nil.mp hp)
      have hq : (allPricesOf l₁).Perm (allPricesOf l₂) := hp.filterMap _
      rcases hh₁ : allPricesOf l₁ with _ | ⟨p0, ps⟩
      · rcases hh₂ : allPricesOf l₂ with _ | ⟨q0, qs⟩
        · unfold analyzeMonthlyFlightData
          rw [if_neg (by simpa [List.length_eq_zero] using h1),
            if_neg (by simpa [List.length_eq_zero] using h2), hh₁, hh₂]
        · rw [hh₁, hh₂] at hq
          exact absurd hq (by simp)
      · rcases hh₂ : allPricesOf l₂ with _ | ⟨q0, qs⟩
        · rw [hh₁, hh₂] at hq
          exact absurd hq (by simp)
        · have hq' : (p0 :: ps).Perm (q0 :: qs) := by rw [← hh₁, ← hh₂]; exact hq
          have hcheap : (reduceMinBy (·.price) p0 ps).price
              = (reduceMinBy (·.price) q0 qs).price :=
            reduceMinBy_price_eq_of_perm (·.price) p0 q0 ps qs hq'
          have hmax : (reduceMaxBy (·.price) p0 ps).price
              = (reduceMaxBy (·.price) q0 qs).price :=
            reduceMaxBy_price_eq_of_perm (·.price) p0 q0 ps qs hq'
          have havg : listAvg ((p0 :: ps).map (·.price))
              = listAvg ((q0 :: qs).map (·.price)) :=
            listAvg_eq_of_perm (hq'.map _)
          have hdist := calculatePriceDistribution_eq_of_perm hq'
          rw [analyzeMonthly_ok h1 hh₁, analyzeMonthly_ok h2 hh₂]
          refine congrArg Except.ok ?_
          show ((reduceMinBy (·.price) p0 ps).price,
              (reduceMaxBy (·.price) p0 ps).price,
              jround (listAvg ((p0 :: ps).map (·.price))),
              (reduceMaxBy (·.price) p0 ps).price - (reduceMinBy (·.price) p0 ps).price,
              calculatePriceDistribution (p0 :: ps))
            = ((reduceMinBy (·.price) q0 qs).price,
              (reduceMaxBy (·.price) q0 qs).price,
              jround (listAvg ((q0 :: qs).map (·.price))),
              (reduceMaxBy (·.price) q0 qs).price - (reduceMinBy (·.price) q0 qs).price,
              calculatePriceDistribution (q0 :: qs))
          rw [hcheap, hmax, havg, hdist]
  · intro m₁ m₂ hp
    rcases m₁ with _ | ⟨r, rs⟩
    · have : m₂ = [] := List.perm_nil.mp hp.symm
      rw [this]
    · rcases m₂ with _ | ⟨s, ss⟩
      · exact absurd hp (by simp)
      · have hq' : (toMultiPoint r :: rs.map toMultiPoint).Perm
            (toMultiPoint s :: ss.map toMultiPoint) := by
          simpa using hp.map toMultiPoint
        have hcheap : (reduceMinBy (·.price) (toMultiPoint r) (rs.map toMultiPoint)).price
            = (reduceMinBy (·.price) (toMultiPoint s) (ss.map toMultiPoint)).price :=
          reduceMinBy_price_eq_of_perm (·.price)
            (toMultiPoint r) (toMultiPoint s) (rs.map toMultiPoint) (ss.map toMultiPoint) hq'
        have hmax : (reduceMaxBy (·.price) (toMultiPoint r) (rs.map toMultiPoint)).price
            = (reduceMaxBy (·.price) (toMultiPoint s) (ss.map toMultiPoint)).price :=
          reduceMaxBy_price_eq_of_perm (·.price)
            (toMultiPoint r) (toMultiPoint s) (rs.map toMultiPoint) (ss.map toMultiPoint) hq'
        have havg : listAvg ((toMultiPoint r :: rs.map toMultiPoint).map (·.price))
            = listAvg ((toMultiPoint s :: ss.map toMultiPoint).map (·.price)) :=
          listAvg_eq_of_perm (hq'.map _)
        refine congrArg Except.ok ?_
        show ((reduceMinBy (·.price) (toMultiPoint r) (rs.map toMultiPoint)).price,
            (reduceMaxBy (·.price) (toMultiPoint r) (rs.map toMultiPoint)).price,
            jround (listAvg ((toMultiPoint r :: rs.map toMultiPoint).map (·.price))),
            (reduceMaxBy (·.price) (toMultiPoint r) (rs.map toMultiPoint)).price
              - (reduceMinBy (·.price) (toMultiPoint r) (rs.map toMultiPoint)).price)
          = ((reduceMinBy (·.price) (toMultiPoint s) (ss.map toMultiPoint)).price,
            (reduceMaxBy (·.price) (toMultiPoint s) (ss.map toMultiPoint)).price,
            jround (listAvg ((toMultiPoint s :: ss.map toMultiPoint).map (·.price))),
            (reduceMaxBy (·.price) (toMultiPoint s) (ss.map toMultiPoint)).price
              - (reduceMinBy (·.price) (toMultiPoint s) (ss.map toMultiPoint)).price)
        rw [hcheap, hmax, havg]

/-- Two monthly entries tied at price 100 on dates 0 and 1, in
chronological order. -/
def permTieL1 : List MonthlyResult :=
  [⟨0, "skyscanner", ⟨[⟨"a", 100⟩]⟩, "economy"⟩,
   ⟨1, "skyscanner", ⟨[⟨"b", 100⟩]⟩, "economy"⟩]

/-- The same two entries, swapped. -/
def permTieL2 : List MonthlyResult :=
  [⟨1, "skyscanner", ⟨[⟨"b", 100⟩]⟩, "economy"⟩,
   ⟨0, "skyscanner", ⟨[⟨"a", 100⟩]⟩, "economy"⟩]

/-- C3 counterexample: swapping two entries tied for the global minimum
changes the reported cheapest date (0 becomes 1), so `analyze` does not
produce identical `cheapest` results on all permutations when several
dates tie for the minimum price. -/
theorem analyze_perm_tie_counterexample :
    permTieL1.Perm permTieL2 ∧
    Except.map (·.cheapestDate) (analyzeMonthlyFlightData permTieL1 true) = .ok 0 ∧
    Except.map (·.cheapestDate) (analyzeMonthlyFlightData permTieL2 true) = .ok 1 := by
  refine ⟨List.Perm.swap _ _ _, ?_, ?_⟩ <;>
    norm_num [analyzeMonthlyFlightData, allPricesOf, mkMonthlyAnalysis,
      reduceMinBy, jsMinPrice, Except.map, permTieL1, permTieL2,
      List.filterMap_cons, List.filterMap_nil]

/-- Two monthly entries with distinct prices, for the C3 witness. -/
def permWitL1 : List MonthlyResult :=
  [⟨0, "skyscanner", ⟨[⟨"a", 100⟩]⟩, "economy"⟩,
   ⟨1, "google_flights", ⟨[⟨"b", 250⟩]⟩, "economy"⟩]

/-- The same two entries, swapped. -/
def permWitL2 : List MonthlyResult :=
  [⟨1, "google_flights", ⟨[⟨"b", 250⟩]⟩, "economy"⟩,
   ⟨0, "skyscanner", ⟨[⟨"a", 100⟩]⟩, "economy"⟩]

/-- Witness for C3's amended theorem at a concrete permutation pair. -/
theorem analyze_perm_invariant_witness :
    Except.map (fun a => (a.cheapestPrice, a.mostExpensivePrice, a.averagePrice,
        a.priceRange, a.priceDistribution)) (analyzeMonthlyFlightData permWitL1 true)
      = Except.map (fun a => (a.cheapestPrice, a.mostExpensivePrice, a.averagePrice,
        a.priceRange, a.priceDistribution)) (analyzeMonthlyFlightData permWitL2 true) :=
  analyze_perm_invariant.1 permWitL1 permWitL2 true (List.Perm.swap _ _ _)

/-! ## C10 -/

/-- C10: `analyzeMonthlyFlightData` errors exactly when the input is empty
(message "No monthly results to analyze") or every entry's itineraries
list is empty (message "No valid prices found in monthly results"), two
distinct error paths; every input containing at least one entry with a
non-empty itineraries list yields an analysis object. -/
theorem monthly_error_characterization (monthlyResults : List MonthlyResult)
    (incl : Bool) :
    ((∃ a, analyzeMonthlyFlightData monthlyResults incl = .ok a) ↔
      (monthlyResults ≠ [] ∧ ∃ e ∈ monthlyResults, e.results.itineraries ≠ [])) ∧
    (analyzeMonthlyFlightData monthlyResults incl
        = .error "No monthly results to analyze" ↔ monthlyResults = []) ∧
    (analyzeMonthlyFlightData monthlyResults incl
        = .error "No valid prices found in monthly results" ↔
      (monthlyResults ≠ [] ∧ ∀ e ∈ monthlyResults, e.results.itineraries = [])) := by
  have hnil : allPricesOf monthlyResults = [] ↔
      ∀ e ∈ monthlyResults, e.results.itineraries = [] := by
    simp [allPricesOf, List.filterMap_eq_nil_iff, List.length_pos]
  rcases monthlyResults with _ | ⟨e, es⟩
  · refine ⟨?_, ?_, ?_⟩ <;> simp [analyzeMonthlyFlightData]
  · have hne : (e :: es) ≠ [] := List.cons_ne_nil e es
    rcases h : allPricesOf (e :: es) with _ | ⟨p0, ps⟩
    · have herr : analyzeMonthlyFlightData (e :: es) incl
          = .error "No valid prices found in monthly results" := by
        unfold analyzeMonthlyFlightData
        rw [if_neg (by simp), h]
      have hall : ∀ x ∈ e :: es, x.results.itineraries = [] := hnil.mp h
      refine ⟨?_, ?_, ?_⟩ <;> rw [herr]
      · simp only [reduceCtorEq, exists_false, false_iff, not_and, not_exists]
        intro _ x hx
        simp [hall x hx]
      · simp
      · simpa using And.intro hne hall
    · have hok : analyzeMonthlyFlightData (e :: es) incl
          = .ok (mkMonthlyAnalysis incl p0 ps) := analyzeMonthly_ok hne h
      have hsome : ∃ x ∈ e :: es, x.results.itineraries ≠ [] := by
        by_contra hcon
        push_neg at hcon
        rw [hnil.mpr hcon] at h
        exact List.cons_ne_nil p0 ps h.symm
      refine ⟨?_, ?_, ?_⟩ <;> rw [hok]
      · exact ⟨fun _ => ⟨hne, hsome⟩, fun _ => ⟨_, rfl⟩⟩
      · simp
      · simp only [reduceCtorEq, false_iff, not_and]
        intro _
        obtain ⟨x, hx, hxne⟩ := hsome
        intro hall2
        exact hxne (hall2 x hx)

/-! ## C5 -/

/-- C5 amended: the `weekendAnalysis` field of the monthly analysis is
always present, holding JS `null` (`none`) — not absent — exactly when
weekend analysis was not requested or either the weekend or the weekday
group of collected entries is empty; when it holds a value, its
`weekendPremium` is `round((avgWeekend - avgWeekday) / avgWeekday * 100)`
over the per-entry minimum prices of the two groups. -/
theorem weekend_analysis_null_gating (monthlyResults : List MonthlyResult)
    (incl : Bool) (h : (analyzeMonthlyFlightData monthlyResults incl).isOk = true) :
    (Except.map (·.weekendAnalysis) (analyzeMonthlyFlightData monthlyResults incl)
        = .ok none ↔
      (incl = false ∨
        (allPricesOf monthlyResults).filter (fun p => isWeekend p.date) = [] ∨
        (allPricesOf monthlyResults).filter (fun p => !(isWeekend p.date)) = [])) ∧
    (∀ w, Except.map (·.weekendAnalysis) (analyzeMonthlyFlightData monthlyResults incl)
        = .ok (some w) →
      w.weekendPremium = jround
        ((listAvg (((allPricesOf monthlyResults).filter (fun p => isWeekend p.date)).map (·.price))
          - listAvg (((allPricesOf monthlyResults).filter (fun p => !(isWeekend p.date))).map (·.price)))
          / listAvg (((allPricesOf monthlyResults).filter (fun p => !(isWeekend p.date))).map (·.price))
          * 100)) := by
  rcases monthlyResults with _ | ⟨e, es⟩
  · rw [show analyzeMonthlyFlightData [] incl
        = .error "No monthly results to analyze" from rfl] at h
    simp [Except.isOk, Except.toBool] at h
  · rcases hap : allPricesOf (e :: es) with _ | ⟨p0, ps⟩
    · have herr : analyzeMonthlyFlightData (e :: es) incl
          = .error "No valid prices found in monthly results" := by
        unfold analyzeMonthlyFlightData
        rw [if_neg (by simp), hap]
      rw [herr] at h
      simp [Except.isOk, Except.toBool] at h
    · rw [analyzeMonthly_ok (List.cons_ne_nil e es) hap]
      simp only [Except.map, Except.ok.injEq, mkMonthlyAnalysis]
      cases incl with
      | false =>
        refine ⟨by simp, fun w hw => absurd hw (by simp)⟩
      | true =>
        by_cases hc : ((p0 :: ps).filter (fun p => isWeekend p.date)).length > 0 ∧
            ((p0 :: ps).filter (fun p => !(isWeekend p.date))).length > 0
        · constructor
          · rw [if_pos (by simp), if_pos hc]
            have h1 : (p0 :: ps).filter (fun p => isWeekend p.date) ≠ [] :=
              List.length_pos.mp hc.1
            have h2 : (p0 :: ps).filter (fun p => !(isWeekend p.date)) ≠ [] :=
              List.length_pos.mp hc.2
            simp [h1, h2]
          · intro w hw
            rw [if_pos (by simp), if_pos hc] at hw
            simp only [Option.some.injEq] at hw
            rw [← hw]
        · constructor
          · rw [if_pos (by simp), if_neg hc]
            refine ⟨fun _ => ?_, fun _ => rfl⟩
            rcases not_and_or.mp hc with hy | hy
            · exact Or.inr (Or.inl (by
                simpa [List.length_eq_zero] using Nat.eq_zero_of_not_pos hy))
            · exact Or.inr (Or.inr (by
                simpa [List.length_eq_zero] using Nat.eq_zero_of_not_pos hy))
          · intro w hw
            rw [if_pos (by simp), if_neg hc] at hw
            exact absurd hw (by simp)

/-- Input with one weekend entry (day 2, a Saturday, price 150) and one
weekday entry (day 4, a Monday, price 100). -/
def c5wInput : List MonthlyResult :=
  [⟨2, "skyscanner", ⟨[⟨"a", 150⟩]⟩, "economy"⟩,
   ⟨4, "skyscanner", ⟨[⟨"b", 100⟩]⟩, "economy"⟩]

/-- The weekend analysis computed for `c5wInput`. -/
def c5wRecord : WeekendAnalysis := ⟨150, 100, 50, [2], [4]⟩

/-- Witness for C5's amended theorem at a concrete input: both groups
non-empty, premium `round((150 - 100) / 100 * 100) = 50`. -/
theorem weekend_analysis_null_gating_witness :
    c5wRecord.weekendPremium = jround (((150 : ℚ) - 100) / 100 * 100) ∧
    c5wRecord.weekendPremium = 50 := by
  constructor
  · have h := (weekend_analysis_null_gating c5wInput true (by
      norm_num [analyzeMonthlyFlightData, allPricesOf, c5wInput, Except.isOk,
        Except.toBool, jsMinPrice, List.filterMap_cons, List.filterMap_nil])).2
      c5wRecord (by
      norm_num [analyzeMonthlyFlightData, allPricesOf, mkMonthlyAnalysis, c5wInput,
        isWeekend, getDay, Except.map, jsMinPrice, listAvg, jround, c5wRecord,
        List.filterMap_cons, List.filterMap_nil])
    rw [h]
    norm_num [allPricesOf, c5wInput, listAvg, isWeekend, getDay, jsMinPrice,
      List.filterMap_cons, List.filterMap_nil]
  · norm_num [c5wRecord]

/-- Input whose single date (day 0, a Thursday) is a weekday. -/
def c5Input : List MonthlyResult := [⟨0, "skyscanner", ⟨[⟨"a", 100⟩]⟩, "economy"⟩]

/-- C5 counterexample: with weekend analysis requested and every date a
weekday, `analyzeMonthlyFlightData` succeeds and its result carries the
`weekendAnalysis` key with the JS value `null` (`none` here; the object
literal at lines 268-283 always includes the key) — the field is not
omitted from the result as the claim requires. -/
theorem weekend_field_null_not_absent :
    Except.map (·.weekendAnalysis) (analyzeMonthlyFlightData c5Input true)
      = .ok none ∧
    (analyzeMonthlyFlightData c5Input true).isOk = true := by
  constructor <;>
    norm_num [analyzeMonthlyFlightData, allPricesOf, mkMonthlyAnalysis, c5Input,
      isWeekend, getDay, Except.map, Except.isOk, Except.toBool, jsMinPrice,
      List.filterMap_cons, List.filterMap_nil]

/-- Membership in a conditional block that contributes nothing when its
condition fails. -/
theorem mem_ite_nil {α : Type} (a : α) (c : Prop) [Decidable c] (l : List α) :
    (a ∈ if c then l else []) ↔ c ∧ a ∈ l := by
  split_ifs with h <;> simp [h]

/-- Membership in a two-way conditional block (if / else if / else-nothing). -/
theorem mem_ite_ite_nil {α : Type} (a u d : α) (c₁ c₂ : Prop)
    [Decidable c₁] [Decidable c₂] :
    (a ∈ if c₁ then [u] else if c₂ then [d] else []) ↔
      (c₁ ∧ a = u) ∨ (¬c₁ ∧ c₂ ∧ a = d) := by
  split_ifs with h1 h2
  · simp [h1]
  · simp [h1, h2]
  · simp [h1, h2]

/-! ## C7 -/

/-- C7 amended: the trend note is emitted by the MONTHLY generator exactly
when `|trend| > 0.15` (upward note for `trend > 0.15`, downward for
`trend < -0.15`), but the MULTI-DATE generator uses the threshold 0.1, not
0.15: its note is emitted exactly when `|trend| > 0.1`, with
direction-specific text in both generators. -/
theorem trend_note_thresholds
    (allPrices : List PricePoint) (cheapest mostExpensive : PricePoint)
    (averagePrice priceRange : ℚ) (weekendAnalysis : Option WeekendAnalysis)
    (prices : List MultiPricePoint) (mc mm : MultiPricePoint) (avg rng : ℚ) :
    (MonthlyRec.trendUp ∈ generateMonthlyRecommendations allPrices cheapest
        mostExpensive averagePrice priceRange weekendAnalysis ↔
      calculatePriceTrend ((sortByDate (·.date) allPrices).map (·.price)) > 0.15) ∧
    (MonthlyRec.trendDown ∈ generateMonthlyRecommendations allPrices cheapest
        mostExpensive averagePrice priceRange weekendAnalysis ↔
      calculatePriceTrend ((sortByDate (·.date) allPrices).map (·.price)) < -0.15) ∧
    (MultiRec.trendUp ∈ generateRecommendations prices mc mm avg rng ↔
      calculatePriceTrend ((sortByDate (·.date) prices).map (·.price)) > 0.1) ∧
    (MultiRec.trendDown ∈ generateRecommendations prices mc mm avg rng ↔
      calculatePriceTrend ((sortByDate (·.date) prices).map (·.price)) < -0.1) := by
  refine ⟨?_, ?_, ?_, ?_⟩ <;>
    rcases hbs : bestSourceOf allPrices with _ | b <;>
    rcases weekendAnalysis with _ | w <;>
    simp [generateMonthlyRecommendations, generateRecommendations, hbs,
      List.mem_append, mem_ite_nil, mem_ite_ite_nil] <;>
    intro h2 <;> linarith

/-- Two-date multi-date input with prices 100 then 112. -/
def c7Input : List DateResult := [⟨0, ⟨[⟨"a", 100⟩]⟩⟩, ⟨1, ⟨[⟨"b", 112⟩]⟩⟩]

/-- C7 counterexample: with per-date prices 100 then 112 the normalized
trend coefficient is 6/53 ≈ 0.113, which does not satisfy
`|trend| > 0.15`, yet the multi-date generator emits the upward trend
note (and nothing else) — its threshold is 0.1, not 0.15. -/
theorem multi_trend_note_below_threshold :
    Except.map (·.recommendations) (analyzePricesAcrossDates c7Input)
      = .ok [MultiRec.trendUp] ∧
    calculatePriceTrend ((sortByDate (·.date)
        ([⟨0, 100⟩, ⟨1, 112⟩] : List MultiPricePoint)).map (·.price)) = 6/53 ∧
    ¬((6 : ℚ)/53 > 0.15) := by
  refine ⟨?_, ?_, ?_⟩
  · norm_num [analyzePricesAcrossDates, mkPriceAnalysis, toMultiPoint, c7Input,
      jsMinPrice, listAvg, jround, generateRecommendations, calculatePriceTrend,
      sortByDate, isWeekend, getDay, List.mergeSort, List.range_succ, Except.map,
      reduceMinBy, reduceMaxBy]
  · norm_num [calculatePriceTrend, sortByDate, List.mergeSort, List.range_succ]
  · norm_num

/-! ## C8 -/


/-- A concatenation of blocks whose elements carry fixed, monotonically
ordered ranks is sorted by rank. -/
theorem sorted_rank_blocks {α : Type} (rank : α → ℕ) (bs : List (ℕ × List α))
    (hrk : ∀ p ∈ bs, ∀ x ∈ p.2, rank x = p.1)
    (hmono : List.Pairwise (fun p q => p.1 ≤ q.1) bs) :
    List.Sorted (· ≤ ·) (((bs.map (·.2)).flatten).map rank) := by
  induction bs with
  | nil => simp
  | cons hd tl ih =>
    simp only [List.map_cons, List.flatten_cons, List.map_append]
    show List.Pairwise (· ≤ ·)
      (List.map rank hd.2 ++ List.map rank ((tl.map (fun x => x.2)).flatten))
    rw [List.pairwise_append]
    have hhd : ∀ y ∈ hd.2.map rank, y = hd.1 := by
      intro y hy
      obtain ⟨x, hx, hxy⟩ := List.mem_map.mp hy
      rw [← hxy]
      exact hrk hd (by simp) x hx
    refine ⟨?_, ih (fun p hp x hx => hrk p (List.mem_cons_of_mem hd hp) x hx)
        (List.pairwise_cons.mp hmono).2, ?_⟩
    · exact List.pairwise_of_forall_mem_list (fun a ha b hb => by
        rw [hhd a ha, hhd b hb])
    · intro a ha b hb
      rw [hhd a ha]
      obtain ⟨x, hx, hxb⟩ := List.mem_map.mp hb
      obtain ⟨l, hl, hxl⟩ := List.mem_flatten.mp hx
      obtain ⟨q, hq, hql⟩ := List.mem_map.mp hl
      rw [← hxb]
      have hxq : rank x = q.1 := by
        rw [← hql] at hxl
        exact hrk q (List.mem_cons_of_mem hd hq) x hxl
      rw [hxq]
      exact (List.pairwise_cons.mp hmono).1 q hq

/-- C8 amended: each generator appends its advisory blocks in a fixed
source order — multi-date: deal alert, overpriced date, trend, weekend,
many-dates, price variation; monthly: deal alert, overpriced date, best
source, weekend, trend, volume, high variation — so the emitted list is
always sorted by block position.  In particular the trend note precedes
the weekend note in the multi-date generator, and the volume note
precedes the high-variation note in both, contrary to the claimed order. -/
theorem recommendations_fixed_order
    (allPrices : List PricePoint) (cheapest mostExpensive : PricePoint)
    (averagePrice priceRange : ℚ) (weekendAnalysis : Option WeekendAnalysis)
    (prices : List MultiPricePoint) (mc mm : MultiPricePoint) (avg rng : ℚ) :
    List.Sorted (· ≤ ·) ((generateMonthlyRecommendations allPrices cheapest
        mostExpensive averagePrice priceRange weekendAnalysis).map monthlyRecRank) ∧
    List.Sorted (· ≤ ·) ((generateRecommendations prices mc mm avg rng).map
        multiRecRank) := by
  constructor
  · have hA : ∀ x ∈ (if cheapest.price < averagePrice * 0.8 then
        [MonthlyRec.dealAlert cheapest.date
          (jround ((1 - cheapest.price / averagePrice) * 100)) cheapest.source]
        else []), monthlyRecRank x = 0 := by
      intro x hx
      rw [mem_ite_nil] at hx
      simp only [List.mem_singleton] at hx
      rw [hx.2]
      rfl
    have hB : ∀ x ∈ (if mostExpensive.price > averagePrice * 1.3 then
        [MonthlyRec.overpricedDate mostExpensive.date
          (jround ((mostExpensive.price / averagePrice - 1) * 100))]
        else []), monthlyRecRank x = 1 := by
      intro x hx
      rw [mem_ite_nil] at hx
      simp only [List.mem_singleton] at hx
      rw [hx.2]
      rfl
    have hT : ∀ x ∈ (if calculatePriceTrend
          ((sortByDate (·.date) allPrices).map (·.price)) > 0.15 then
        [MonthlyRec.trendUp]
        else if calculatePriceTrend
          ((sortByDate (·.date) allPrices).map (·.price)) < -0.15 then
        [MonthlyRec.trendDown]
        else []), monthlyRecRank x = 4 := by
      intro x hx
      rw [mem_ite_ite_nil] at hx
      rcases hx with ⟨-, rfl⟩ | ⟨-, -, rfl⟩ <;> rfl
    have hV : ∀ x ∈ (if allPrices.length ≥ 20 then [MonthlyRec.comprehensive]
        else []), monthlyRecRank x = 5 := by
      intro x hx
      rw [mem_ite_nil] at hx
      simp only [List.mem_singleton] at hx
      rw [hx.2]
      rfl
    have hW : ∀ x ∈ (if priceRange > averagePrice * 0.6 then
        [MonthlyRec.highVariation] else []), monthlyRecRank x = 6 := by
      intro x hx
      rw [mem_ite_nil] at hx
      simp only [List.mem_singleton] at hx
      rw [hx.2]
      rfl
    rcases hbs : bestSourceOf allPrices with _ | b <;>
      rcases weekendAnalysis with _ | w
    · have key := sorted_rank_blocks monthlyRecRank
        [(0, if cheapest.price < averagePrice * 0.8 then
            [MonthlyRec.dealAlert cheapest.date
              (jround ((1 - cheapest.price / averagePrice) * 100)) cheapest.source]
            else []),
         (1, if mostExpensive.price > averagePrice * 1.3 then
            [MonthlyRec.overpricedDate mostExpensive.date
              (jround ((mostExpensive.price / averagePrice - 1) * 100))]
            else []),
         (2, []), (3, []),
         (4, if calculatePriceTrend
              ((sortByDate (·.date) allPrices).map (·.price)) > 0.15 then
            [MonthlyRec.trendUp]
            else if calculatePriceTrend
              ((sortByDate (·.date) allPrices).map (·.price)) < -0.15 then
            [MonthlyRec.trendDown]
            else []),
         (5, if allPrices.length ≥ 20 then [MonthlyRec.comprehensive] else []),
         (6, if priceRange > averagePrice * 0.6 then [MonthlyRec.highVariation] else [])]
        (by
          intro p hp
          simp only [List.mem_cons, List.not_mem_nil, or_false] at hp
          rcases hp with rfl | rfl | rfl | rfl | rfl | rfl | rfl
          exacts [hA, hB, by simp, by simp, hT, hV, hW])
        (by simp [List.pairwise_cons])
      simp only [List.map_cons, List.map_nil, List.flatten_cons, List.flatten_nil,
        List.append_nil, List.append_assoc] at key
      simpa only [generateMonthlyRecommendations, hbs, List.append_assoc] using key
    · have hD : ∀ x ∈ (if w.weekendPremium > 20 then
          [MonthlyRec.weekendExpensive w.weekendPremium]
          else if w.weekendPremium < -10 then
          [MonthlyRec.weekendCheaper |w.weekendPremium|]
          else []), monthlyRecRank x = 3 := by
        intro x hx
        rw [mem_ite_ite_nil] at hx
        rcases hx with ⟨-, rfl⟩ | ⟨-, -, rfl⟩ <;> rfl
      have key := sorted_rank_blocks monthlyRecRank
        [(0, if cheapest.price < averagePrice * 0.8 then
            [MonthlyRec.dealAlert cheapest.date
              (jround ((1 - cheapest.price / averagePrice) * 100)) cheapest.source]
            else []),
         (1, if mostExpensive.price > averagePrice * 1.3 then
            [MonthlyRec.overpricedDate mostExpensive.date
              (jround ((mostExpensive.price / averagePrice - 1) * 100))]
            else []),
         (2, []),
         (3, if w.weekendPremium > 20 then
            [MonthlyRec.weekendExpensive w.weekendPremium]
            else if w.weekendPremium < -10 then
            [MonthlyRec.weekendCheaper |w.weekendPremium|]
            else []),
         (4, if calculatePriceTrend
              ((sortByDate (·.date) allPrices).map (·.price)) > 0.15 then
            [MonthlyRec.trendUp]
            else if calculatePriceTrend
              ((sortByDate (·.date) allPrices).map (·.price)) < -0.15 then
            [MonthlyRec.trendDown]
            else []),
         (5, if allPrices.length ≥ 20 then [MonthlyRec.comprehensive] else []),
         (6, if priceRange > averagePrice * 0.6 then [MonthlyRec.highVariation] else [])]
        (by
          intro p hp
          simp only [List.mem_cons, List.not_mem_nil, or_false] at hp
          rcases hp with rfl | rfl | rfl | rfl | rfl | rfl | rfl
          exacts [hA, hB, by simp, hD, hT, hV, hW])
        (by simp [List.pairwise_cons])
      simp only [List.map_cons, List.map_nil, List.flatten_cons, List.flatten_nil,
        List.append_nil, List.append_assoc] at key
      simpa only [generateMonthlyRecommendations, hbs, List.append_assoc] using key
    · have hC : ∀ x ∈ (if b.1 ≠ "" ∧ b.2 < averagePrice * 0.95 then
          [MonthlyRec.bestSource b.1 (jround ((1 - b.2 / averagePrice) * 100))]
          else []), monthlyRecRank x = 2 := by
        intro x hx
        rw [mem_ite_nil] at hx
        simp only [List.mem_singleton] at hx
        rw [hx.2]
        rfl
      have key := sorted_rank_blocks monthlyRecRank
        [(0, if cheapest.price < averagePrice * 0.8 then
            [MonthlyRec.dealAlert cheapest.date
              (jround ((1 - cheapest.price / averagePrice) * 100)) cheapest.source]
            else []),
         (1, if mostExpensive.price > averagePrice * 1.3 then
            [MonthlyRec.overpricedDate mostExpensive.date
              (jround ((mostExpensive.price / averagePrice - 1) * 100))]
            else []),
         (2, if b.1 ≠ "" ∧ b.2 < averagePrice * 0.95 then
            [MonthlyRec.bestSource b.1 (jround ((1 - b.2 / averagePrice) * 100))]
            else []),
         (3, []),
         (4, if calculatePriceTrend
              ((sortByDate (·.date) allPrices).map (·.price)) > 0.15 then
            [MonthlyRec.trendUp]
            else if calculatePriceTrend
              ((sortByDate (·.date) allPrices).map (·.price)) < -0.15 then
            [MonthlyRec.trendDown]
            else []),
         (5, if allPrices.length ≥ 20 then [MonthlyRec.comprehensive] else []),
         (6, if priceRange > averagePrice * 0.6 then [MonthlyRec.highVariation] else [])]
        (by
          intro p hp
          simp only [List.mem_cons, List.not_mem_nil, or_false] at hp
          rcases hp with rfl | rfl | rfl | rfl | rfl | rfl | rfl
          exacts [hA, hB, hC, by simp, hT, hV, hW])
        (by simp [List.pairwise_cons])
      simp only [List.map_cons, List.map_nil, List.flatten_cons, List.flatten_nil,
        List.append_nil, List.append_assoc] at key
      simpa only [generateMonthlyRecommendations, hbs, List.append_assoc] using key
    · have hC : ∀ x ∈ (if b.1 ≠ "" ∧ b.2 < averagePrice * 0.95 then
          [MonthlyRec.bestSource b.1 (jround ((1 - b.2 / averagePrice) * 100))]
          else []), monthlyRecRank x = 2 := by
        intro x hx
        rw [mem_ite_nil] at hx
        simp only [List.mem_singleton] at hx
        rw [hx.2]
        rfl
      have hD : ∀ x ∈ (if w.weekendPremium > 20 then
          [MonthlyRec.weekendExpensive w.weekendPremium]
          else if w.weekendPremium < -10 then
          [MonthlyRec.weekendCheaper |w.weekendPremium|]
          else []), monthlyRecRank x = 3 := by
        intro x hx
        rw [mem_ite_ite_nil] at hx
        rcases hx with ⟨-, rfl⟩ | ⟨-, -, rfl⟩ <;> rfl
      have key := sorted_rank_blocks monthlyRecRank
        [(0, if cheapest.price < averagePrice * 0.8 then
            [MonthlyRec.dealAlert cheapest.date
              (jround ((1 - cheapest.price / averagePrice) * 100)) cheapest.source]
            else []),
         (1, if mostExpensive.price > averagePrice * 1.3 then
            [MonthlyRec.overpricedDate mostExpensive.date
              (jround ((mostExpensive.price / averagePrice - 1) * 100))]
            else []),
         (2, if b.1 ≠ "" ∧ b.2 < averagePrice * 0.95 then
            [MonthlyRec.bestSource b.1 (jround ((1 - b.2 / averagePrice) * 100))]
            else []),
         (3, if w.weekendPremium > 20 then
            [MonthlyRec.weekendExpensive w.weekendPremium]
            else if w.weekendPremium < -10 then
            [MonthlyRec.weekendCheaper |w.weekendPremium|]
            else []),
         (4, if calculatePriceTrend
              ((sortByDate (·.date) allPrices).map (·.price)) > 0.15 then
            [MonthlyRec.trendUp]
            else if calculatePriceTrend
              ((sortByDate (·.date) allPrices).map (·.price)) < -0.15 then
            [MonthlyRec.trendDown]
            else []),
         (5, if allPrices.length ≥ 20 then [MonthlyRec.comprehensive] else []),
         (6, if priceRange > averagePrice * 0.6 then [MonthlyRec.highVariation] else [])]
        (by
          intro p hp
          simp only [List.mem_cons, List.not_mem_nil, or_false] at hp
          rcases hp with rfl | rfl | rfl | rfl | rfl | rfl | rfl
          exacts [hA, hB, hC, hD, hT, hV, hW])
        (by simp [List.pairwise_cons])
      simp only [List.map_cons, List.map_nil, List.flatten_cons, List.flatten_nil,
        List.append_nil, List.append_assoc] at key
      simpa only [generateMonthlyRecommendations, hbs, List.append_assoc] using key
  · have hA : ∀ x ∈ (if mc.price < avg * 0.8 then
        [MultiRec.dealAlert mc.date (jround ((1 - mc.price / avg) * 100))]
        else []), multiRecRank x = 0 := by
      intro x hx
      rw [mem_ite_nil] at hx
      simp only [List.mem_singleton] at hx
      rw [hx.2]
      rfl
    have hB : ∀ x ∈ (if mm.price > avg * 1.3 then
        [MultiRec.overpricedDate mm.date (jround ((mm.price / avg - 1) * 100))]
        else []), multiRecRank x = 1 := by
      intro x hx
      rw [mem_ite_nil] at hx
      simp only [List.mem_singleton] at hx
      rw [hx.2]
      rfl
    have hT : ∀ x ∈ (if calculatePriceTrend
          ((sortByDate (·.date) prices).map (·.price)) > 0.1 then
        [MultiRec.trendUp]
        else if calculatePriceTrend
          ((sortByDate (·.date) prices).map (·.price)) < -0.1 then
        [MultiRec.trendDown]
        else []), multiRecRank x = 2 := by
      intro x hx
      rw [mem_ite_ite_nil] at hx
      rcases hx with ⟨-, rfl⟩ | ⟨-, -, rfl⟩ <;> rfl
    have hD : ∀ x ∈ (if (prices.filter (fun p => isWeekend p.date)).length > 0 ∧
          (prices.filter (fun p => !(isWeekend p.date))).length > 0 ∧
          listAvg ((prices.filter (fun p => isWeekend p.date)).map (·.price))
            > listAvg ((prices.filter (fun p => !(isWeekend p.date))).map (·.price)) * 1.2 then
        [MultiRec.weekendMoreExpensive] else []), multiRecRank x = 3 := by
      intro x hx
      rw [mem_ite_nil] at hx
      simp only [List.mem_singleton] at hx
      rw [hx.2]
      rfl
    have hM : ∀ x ∈ (if prices.length ≥ 7 then [MultiRec.manyDates] else []),
        multiRecRank x = 4 := by
      intro x hx
      rw [mem_ite_nil] at hx
      simp only [List.mem_singleton] at hx
      rw [hx.2]
      rfl
    have hV : ∀ x ∈ (if rng > avg * 0.5 then [MultiRec.priceVariation] else []),
        multiRecRank x = 5 := by
      intro x hx
      rw [mem_ite_nil] at hx
      simp only [List.mem_singleton] at hx
      rw [hx.2]
      rfl
    have key := sorted_rank_blocks multiRecRank
      [(0, if mc.price < avg * 0.8 then
          [MultiRec.dealAlert mc.date (jround ((1 - mc.price / avg) * 100))]
          else []),
       (1, if mm.price > avg * 1.3 then
          [MultiRec.overpricedDate mm.date (jround ((mm.price / avg - 1) * 100))]
          else []),
       (2, if calculatePriceTrend
            ((sortByDate (·.date) prices).map (·.price)) > 0.1 then
          [MultiRec.trendUp]
          else if calculatePriceTrend
            ((sortByDate (·.date) prices).map (·.price)) < -0.1 then
          [MultiRec.trendDown]
          else []),
       (3, if (prices.filter (fun p => isWeekend p.date)).length > 0 ∧
            (prices.filter (fun p => !(isWeekend p.date))).length > 0 ∧
            listAvg ((prices.filter (fun p => isWeekend p.date)).map (·.price))
              > listAvg ((prices.filter (fun p => !(isWeekend p.date))).map (·.price)) * 1.2 then
          [MultiRec.weekendMoreExpensive] else []),
       (4, if prices.length ≥ 7 then [MultiRec.manyDates] else []),
       (5, if rng > avg * 0.5 then [MultiRec.priceVariation] else [])]
      (by
        intro p hp
        simp only [List.mem_cons, List.not_mem_nil, or_false] at hp
        rcases hp with rfl | rfl | rfl | rfl | rfl | rfl
        exacts [hA, hB, hT, hD, hM, hV])
      (by simp [List.pairwise_cons])
    simp only [List.map_cons, List.map_nil, List.flatten_cons, List.flatten_nil,
      List.append_nil, List.append_assoc] at key
    simpa only [generateRecommendations, List.append_assoc] using key

set_option maxHeartbeats 4000000

/-- Twenty monthly entries, one per day 0..19 from a single source, price
400 on day 10 and 100 elsewhere: average 115, range 300, trend ≈ 0.002. -/
def c8Input : List MonthlyResult :=
  [⟨0, "skyscanner", ⟨[⟨"i", 100⟩]⟩, "economy"⟩,
   ⟨1, "skyscanner", ⟨[⟨"i", 100⟩]⟩, "economy"⟩,
   ⟨2, "skyscanner", ⟨[⟨"i", 100⟩]⟩, "economy"⟩,
   ⟨3, "skyscanner", ⟨[⟨"i", 100⟩]⟩, "economy"⟩,
   ⟨4, "skyscanner", ⟨[⟨"i", 100⟩]⟩, "economy"⟩,
   ⟨5, "skyscanner", ⟨[⟨"i", 100⟩]⟩, "economy"⟩,
   ⟨6, "skyscanner", ⟨[⟨"i", 100⟩]⟩, "economy"⟩,
   ⟨7, "skyscanner", ⟨[⟨"i", 100⟩]⟩, "economy"⟩,
   ⟨8, "skyscanner", ⟨[⟨"i", 100⟩]⟩, "economy"⟩,
   ⟨9, "skyscanner", ⟨[⟨"i", 100⟩]⟩, "economy"⟩,
   ⟨10, "skyscanner", ⟨[⟨"i", 400⟩]⟩, "economy"⟩,
   ⟨11, "skyscanner", ⟨[⟨"i", 100⟩]⟩, "economy"⟩,
   ⟨12, "skyscanner", ⟨[⟨"i", 100⟩]⟩, "economy"⟩,
   ⟨13, "skyscanner", ⟨[⟨"i", 100⟩]⟩, "economy"⟩,
   ⟨14, "skyscanner", ⟨[⟨"i", 100⟩]⟩, "economy"⟩,
   ⟨15, "skyscanner", ⟨[⟨"i", 100⟩]⟩, "economy"⟩,
   ⟨16, "skyscanner", ⟨[⟨"i", 100⟩]⟩, "economy"⟩,
   ⟨17, "skyscanner", ⟨[⟨"i", 100⟩]⟩, "economy"⟩,
   ⟨18, "skyscanner", ⟨[⟨"i", 100⟩]⟩, "economy"⟩,
   ⟨19, "skyscanner", ⟨[⟨"i", 100⟩]⟩, "economy"⟩]

/-- C8 counterexample: on `c8Input` (weekend analysis off) the monthly
recommendations are exactly overpriced-date, then the volume note, then
the high-variation note — the volume note PRECEDES the high-variation
note, and the claimed priority order (variation before volume) is false. -/
theorem monthly_volume_note_before_variation_note :
    Except.map (·.recommendations) (analyzeMonthlyFlightData c8Input false)
      = .ok [MonthlyRec.overpricedDate 10 248, MonthlyRec.comprehensive,
             MonthlyRec.highVariation] := by
  have hap : allPricesOf c8Input
      = (⟨0, 100, "skyscanner", "economy"⟩ : PricePoint) ::
      [⟨1, 100, "skyscanner", "economy"⟩,
       ⟨2, 100, "skyscanner", "economy"⟩,
       ⟨3, 100, "skyscanner", "economy"⟩,
       ⟨4, 100, "skyscanner", "economy"⟩,
       ⟨5, 100, "skyscanner", "economy"⟩,
       ⟨6, 100, "skyscanner", "economy"⟩,
       ⟨7, 100, "skyscanner", "economy"⟩,
       ⟨8, 100, "skyscanner", "economy"⟩,
       ⟨9, 100, "skyscanner", "economy"⟩,
       ⟨10, 400, "skyscanner", "economy"⟩,
       ⟨11, 100, "skyscanner", "economy"⟩,
       ⟨12, 100, "skyscanner", "economy"⟩,
       ⟨13, 100, "skyscanner", "economy"⟩,
       ⟨14, 100, "skyscanner", "economy"⟩,
       ⟨15, 100, "skyscanner", "economy"⟩,
       ⟨16, 100, "skyscanner", "economy"⟩,
       ⟨17, 100, "skyscanner", "economy"⟩,
       ⟨18, 100, "skyscanner", "economy"⟩,
       ⟨19, 100, "skyscanner", "economy"⟩] := rfl
  have hne : c8Input ≠ [] := by simp [c8Input]
  have hsorted : sortByDate (·.date)
      ((⟨0, 100, "skyscanner", "economy"⟩ : PricePoint) ::
      [⟨1, 100, "skyscanner", "economy"⟩,
       ⟨2, 100, "skyscanner", "economy"⟩,
       ⟨3, 100, "skyscanner", "economy"⟩,
       ⟨4, 100, "skyscanner", "economy"⟩,
       ⟨5, 100, "skyscanner", "economy"⟩,
       ⟨6, 100, "skyscanner", "economy"⟩,
       ⟨7, 100, "skyscanner", "economy"⟩,
       ⟨8, 100, "skyscanner", "economy"⟩,
       ⟨9, 100, "skyscanner", "economy"⟩,
       ⟨10, 400, "skyscanner", "economy"⟩,
       ⟨11, 100, "skyscanner", "economy"⟩,
       ⟨12, 100, "skyscanner", "economy"⟩,
       ⟨13, 100, "skyscanner", "economy"⟩,
       ⟨14, 100, "skyscanner", "economy"⟩,
       ⟨15, 100, "skyscanner", "economy"⟩,
       ⟨16, 100, "skyscanner", "economy"⟩,
       ⟨17, 100, "skyscanner", "economy"⟩,
       ⟨18, 100, "skyscanner", "economy"⟩,
       ⟨19, 100, "skyscanner", "economy"⟩])
      = (⟨0, 100, "skyscanner", "economy"⟩ : PricePoint) ::
      [⟨1, 100, "skyscanner", "economy"⟩,
       ⟨2, 100, "skyscanner", "economy"⟩,
       ⟨3, 100, "skyscanner", "economy"⟩,
       ⟨4, 100, "skyscanner", "economy"⟩,
       ⟨5, 100, "skyscanner", "economy"⟩,
       ⟨6, 100, "skyscanner", "economy"⟩,
       ⟨7, 100, "skyscanner", "economy"⟩,
       ⟨8, 100, "skyscanner", "economy"⟩,
       ⟨9, 100, "skyscanner", "economy"⟩,
       ⟨10, 400, "skyscanner", "economy"⟩,
       ⟨11, 100, "skyscanner", "economy"⟩,
       ⟨12, 100, "skyscanner", "economy"⟩,
       ⟨13, 100, "skyscanner", "economy"⟩,
       ⟨14, 100, "skyscanner", "economy"⟩,
       ⟨15, 100, "skyscanner", "economy"⟩,
       ⟨16, 100, "skyscanner", "economy"⟩,
       ⟨17, 100, "skyscanner", "economy"⟩,
       ⟨18, 100, "skyscanner", "economy"⟩,
       ⟨19, 100, "skyscanner", "economy"⟩] :=
    List.mergeSort_of_sorted (by decide)
  rw [analyzeMonthly_ok hne hap]
  simp only [Except.map]
  norm_num [mkMonthlyAnalysis, generateMonthlyRecommendations, reduceMinBy,
    reduceMaxBy, listAvg, jround, bestSourceOf, groupPricesBySource,
    calculatePriceTrend, hsorted, List.range_succ]

/-- Common success/failure characterization of the two collection loops:
with `f` the per-(date, source) result filter, the run succeeds exactly
when some pair passes the filter, and otherwise yields the fixed error
message. -/
theorem collectLoop_spec (dates : List ℤ) (sources : List String)
    (f : ℤ → String → Option DateResult) (P : ℤ → String → Prop)
    (hf : ∀ d s, f d s = none ↔ ¬ P d s) :
    ((∃ l, (if (dates.flatMap (fun d => sources.filterMap (f d))).length = 0 then
        (.error "No flights found for any of the specified dates" :
          Except String (List DateResult))
      else .ok (dates.flatMap (fun d => sources.filterMap (f d)))) = .ok l) ↔
      ∃ d ∈ dates, ∃ s ∈ sources, P d s) ∧
    ((¬ ∃ d ∈ dates, ∃ s ∈ sources, P d s) →
      (if (dates.flatMap (fun d => sources.filterMap (f d))).length = 0 then
        (.error "No flights found for any of the specified dates" :
          Except String (List DateResult))
      else .ok (dates.flatMap (fun d => sources.filterMap (f d))))
        = .error "No flights found for any of the specified dates") := by
  have hchar : (dates.flatMap (fun d => sources.filterMap (f d))) = [] ↔
      ¬ ∃ d ∈ dates, ∃ s ∈ sources, P d s := by
    simp only [List.flatMap_eq_nil_iff, List.filterMap_eq_nil_iff]
    constructor
    · intro h
      push_neg
      intro d hd s hs
      exact (hf d s).mp (h d hd s hs)
    · intro h d hd s hs
      push_neg at h
      exact (hf d s).mpr (h d hd s hs)
  by_cases hA : (dates.flatMap (fun d => sources.filterMap (f d))).length = 0
  · have hnil : dates.flatMap (fun d => sources.filterMap (f d)) = [] :=
      List.length_eq_zero.mp hA
    rw [if_pos hA]
    refine ⟨⟨fun hl => ?_, fun hex => absurd hex (hchar.mp hnil)⟩, fun _ => rfl⟩
    obtain ⟨l, hl⟩ := hl
    exact absurd hl (by simp)
  · have hne : dates.flatMap (fun d => sources.filterMap (f d)) ≠ [] :=
      fun hnil => hA (by rw [hnil]; rfl)
    rw [if_neg hA]
    refine ⟨⟨fun _ => ?_, fun _ => ⟨_, rfl⟩⟩, fun hno => absurd (hchar.mpr hno) hne⟩
    by_contra hno
    exact hne (hchar.mpr hno)

/-- C2 amended: the helper `searchMultipleDates` skips both thrown errors
and successful responses with an empty itinerary list, succeeding exactly
when at least one (date, source) pair yields at least one itinerary, and
otherwise failing with the fixed message "No flights found for any of the
specified dates" (the requested range is not part of the message); the
`index.ts` `handleSearchMultipleDates` loop, however, skips only thrown
errors and succeeds whenever any call merely returns, even with zero
itineraries. -/
theorem searchMultipleDates_success_iff
    (dates : List ℤ) (sources : List String)
    (connector : ℤ → String → Except String FlightSearchResponse) :
    ((∃ l, searchMultipleDates dates sources connector = .ok l) ↔
      ∃ d ∈ dates, ∃ s ∈ sources, ∃ r, connector d s = .ok r ∧ r.itineraries ≠ []) ∧
    ((¬ ∃ d ∈ dates, ∃ s ∈ sources, ∃ r, connector d s = .ok r ∧ r.itineraries ≠ []) →
      searchMultipleDates dates sources connector
        = .error "No flights found for any of the specified dates") ∧
    ((∃ l, handleSearchMultipleDatesCollect dates sources connector = .ok l) ↔
      ∃ d ∈ dates, ∃ s ∈ sources, ∃ r, connector d s = .ok r) := by
  have hptA : ∀ (d : ℤ) (s : String),
      ((match connector d s with
        | .error _ => none
        | .ok results =>
          if results.itineraries.length > 0 then some (⟨d, results⟩ : DateResult)
          else none) = none) ↔
      ¬ ∃ r, connector d s = .ok r ∧ r.itineraries ≠ [] := by
    intro d s
    rcases hc : connector d s with e | r
    · simp
    · by_cases hi : r.itineraries.length > 0
      · have hr : r.itineraries ≠ [] := by
          intro h0
          rw [h0] at hi
          simp at hi
        simp [if_pos hi, hr]
      · have hr : r.itineraries = [] := by
          simpa [List.length_eq_zero] using Nat.eq_zero_of_not_pos hi
        simp [if_neg hi, hr]
  have hptB : ∀ (d : ℤ) (s : String),
      ((match connector d s with
        | .error _ => none
        | .ok results => some (⟨d, results⟩ : DateResult)) = none) ↔
      ¬ ∃ r, connector d s = .ok r := by
    intro d s
    rcases hc : connector d s with e | r <;> simp
  have HA := collectLoop_spec dates sources
    (fun d s => match connector d s with
      | .error _ => none
      | .ok results =>
        if results.itineraries.length > 0 then some (⟨d, results⟩ : DateResult)
        else none)
    (fun d s => ∃ r, connector d s = .ok r ∧ r.itineraries ≠ []) hptA
  have HB := collectLoop_spec dates sources
    (fun d s => match connector d s with
      | .error _ => none
      | .ok results => some (⟨d, results⟩ : DateResult))
    (fun d s => ∃ r, connector d s = .ok r) hptB
  exact ⟨HA.1, HA.2, HB.1⟩

/-- A connector whose every call succeeds with one itinerary. -/
def oneItineraryConnector : ℤ → String → Except String FlightSearchResponse :=
  fun _ _ => .ok ⟨[⟨"w", 99⟩]⟩

/-- Witness for C2's amended theorem: the all-throwing connector makes
the helper fail with the fixed message, and a connector yielding one
itinerary makes it succeed. -/
theorem searchMultipleDates_success_iff_witness :
    searchMultipleDates [0] ["skyscanner"] throwingConnector
      = .error "No flights found for any of the specified dates" ∧
    (∃ l, searchMultipleDates [0] ["skyscanner"] oneItineraryConnector = .ok l) := by
  constructor
  · exact (searchMultipleDates_success_iff [0] ["skyscanner"] throwingConnector).2.1
      (by simp [throwingConnector])
  · exact (searchMultipleDates_success_iff [0] ["skyscanner"] oneItineraryConnector).1.mpr
      ⟨0, by simp, "skyscanner", by simp, ⟨[⟨"w", 99⟩]⟩, rfl, by simp⟩

/-- A quote's date always appears among the per-entry point dates: quotes
only come from entries with a non-empty itinerary list. -/
theorem mem_specQuotes_date (l : List MonthlyResult) (q : ℤ × ℚ)
    (hq : q ∈ specQuotes l) : q.1 ∈ (allPricesOf l).map (·.date) := by
  obtain ⟨e, he, hqe⟩ := List.mem_flatMap.mp hq
  obtain ⟨it, hit, hq2⟩ := List.mem_map.mp hqe
  have hene : e.results.itineraries.length > 0 := by
    rcases h : e.results.itineraries with _ | ⟨a, b⟩
    · rw [h] at hit
      simp at hit
    · simp [h]
  refine List.mem_map.mpr
    ⟨⟨e.date, jsMinPrice (e.results.itineraries.map (·.priceAmount)),
      e.source, e.cabinClass⟩, ?_, ?_⟩
  · exact List.mem_filterMap.mpr ⟨e, he, by rw [if_pos hene]⟩
  · rw [← hq2]

/-- When the per-entry point dates are pairwise distinct, the quotes
sharing a non-empty entry's date are exactly that entry's itineraries. -/
theorem specQuotes_filter_eq (l : List MonthlyResult)
    (hnd : ((allPricesOf l).map (·.date)).Nodup) :
    ∀ e ∈ l, e.results.itineraries.length > 0 →
      ((specQuotes l).filter (fun q => q.1 == e.date)).map (·.2)
        = e.results.itineraries.map (·.priceAmount) := by
  induction l with
  | nil => simp
  | cons x xs ih =>
    intro e he hene
    have hql : specQuotes (x :: xs)
        = (x.results.itineraries.map (fun it => (x.date, it.priceAmount)))
          ++ specQuotes xs := by
      simp [specQuotes]
    by_cases hx : x.results.itineraries.length > 0
    · have hap : allPricesOf (x :: xs)
          = (⟨x.date, jsMinPrice (x.results.itineraries.map (·.priceAmount)),
              x.source, x.cabinClass⟩ : PricePoint) :: allPricesOf xs := by
        simp [allPricesOf, List.filterMap_cons, if_pos hx]
      rw [hap] at hnd
      simp only [List.map_cons, List.nodup_cons] at hnd
      obtain ⟨hxdate, hndxs⟩ := hnd
      rcases List.mem_cons.mp he with rfl | hexs
      · rw [hql, List.filter_append]
        have h1 : (e.results.itineraries.map
            (fun it => (e.date, it.priceAmount))).filter (fun q => q.1 == e.date)
            = e.results.itineraries.map (fun it => (e.date, it.priceAmount)) := by
          apply List.filter_eq_self.mpr
          intro q hq
          obtain ⟨it, hit, hq2⟩ := List.mem_map.mp hq
          rw [← hq2]
          simp
        have h2 : (specQuotes xs).filter (fun q => q.1 == e.date) = [] := by
          apply List.filter_eq_nil_iff.mpr
          intro q hq
          have hqd := mem_specQuotes_date xs q hq
          simp only [beq_iff_eq, decide_eq_true_eq]
          intro hqeq
          exact hxdate (hqeq ▸ hqd)
        rw [h1, h2, List.append_nil, List.map_map]
        rfl
      · have hedate : e.date ∈ (allPricesOf xs).map (·.date) := by
          refine List.mem_map.mpr
            ⟨⟨e.date, jsMinPrice (e.results.itineraries.map (·.priceAmount)),
              e.source, e.cabinClass⟩, ?_, rfl⟩
          exact List.mem_filterMap.mpr ⟨e, hexs, by rw [if_pos hene]⟩
        have hne_date : x.date ≠ e.date := by
          intro hEq
          exact hxdate (hEq ▸ hedate)
        have h0 : (x.results.itineraries.map
            (fun it => (x.date, it.priceAmount))).filter (fun q => q.1 == e.date)
            = [] := by
          apply List.filter_eq_nil_iff.mpr
          intro q hq
          obtain ⟨it, hit, hq2⟩ := List.mem_map.mp hq
          rw [← hq2]
          simpa using hne_date
        rw [hql, List.filter_append, h0, List.nil_append]
        exact ih hndxs e hexs hene
    · have hxe : x.results.itineraries = [] := by
        simpa [List.length_eq_zero] using Nat.eq_zero_of_not_pos hx
      have hap : allPricesOf (x :: xs) = allPricesOf xs := by
        simp [allPricesOf, List.filterMap_cons, if_neg hx]
      rw [hap] at hnd
      rcases List.mem_cons.mp he with rfl | hexs
      · rw [hxe] at hene
        simp at hene
      · have hqx : specQuotes (x :: xs) = specQuotes xs := by
          simp [specQuotes, hxe]
        rw [hqx]
        exact ih hnd e hexs hene

/-- Under distinct per-entry dates, the spec's per-date minimum at a
point's date is exactly that point's per-entry minimum price. -/
theorem specPerDateMin_of_nodup (l : List MonthlyResult)
    (hnd : ((allPricesOf l).map (·.date)).Nodup) :
    ∀ p ∈ allPricesOf l, specPerDateMin l p.date = p.price := by
  intro p hp
  obtain ⟨e, he, hpe⟩ := List.mem_filterMap.mp hp
  by_cases hx : e.results.itineraries.length > 0
  · rw [if_pos hx] at hpe
    simp only [Option.some.injEq] at hpe
    rw [← hpe]
    show specPerDateMin l e.date
      = jsMinPrice (e.results.itineraries.map (·.priceAmount))
    unfold specPerDateMin
    rw [specQuotes_filter_eq l hnd e he hx]
  · rw [if_neg hx] at hpe
    exact absurd hpe (by simp)

/-- C1 amended: the monthly statistics are computed over per-entry
minimums — each (date, source) entry reduced to its minimum itinerary
price, entries sharing a date NOT merged — and therefore, whenever the
collected entries carry pairwise distinct dates, the average is the
rounded arithmetic mean of the spec's per-date minimums and the cheapest
price is their minimum. -/
theorem monthly_average_of_distinct_dates
    (monthlyResults : List MonthlyResult) (incl : Bool)
    (hnd : ((allPricesOf monthlyResults).map (·.date)).Nodup)
    (hne : allPricesOf monthlyResults ≠ []) :
    Except.map (·.averagePrice) (analyzeMonthlyFlightData monthlyResults incl)
      = .ok (jround (listAvg (((allPricesOf monthlyResults).map (·.date)).map
          (specPerDateMin monthlyResults)))) ∧
    Except.map (·.cheapestPrice) (analyzeMonthlyFlightData monthlyResults incl)
      = .ok (jsMinPrice (((allPricesOf monthlyResults).map (·.date)).map
          (specPerDateMin monthlyResults))) := by
  have hlne : monthlyResults ≠ [] := by
    intro h0
    rw [h0] at hne
    exact hne rfl
  rcases hap : allPricesOf monthlyResults with _ | ⟨p0, ps⟩
  · exact absurd hap hne
  · have hkey : ((p0 :: ps).map (·.date)).map (specPerDateMin monthlyResults)
        = (p0 :: ps).map (·.price) := by
      rw [← hap, List.map_map]
      exact List.map_congr_left
        (fun p hp => specPerDateMin_of_nodup monthlyResults hnd p hp)
    rw [analyzeMonthly_ok hlne hap]
    constructor
    · simp only [Except.map]
      rw [hkey]
      rfl
    · simp only [Except.map]
      rw [hkey]
      exact congrArg Except.ok (reduceMinBy_price_eq_jsMinPrice (·.price) p0 ps)

/-- Two-entry input with distinct dates; the first entry carries two
itineraries (400 and 100). -/
def c1wInput : List MonthlyResult :=
  [⟨0, "skyscanner", ⟨[⟨"x", 400⟩, ⟨"y", 100⟩]⟩, "economy"⟩,
   ⟨1, "google_flights", ⟨[⟨"z", 250⟩]⟩, "economy"⟩]

/-- Witness for C1's amended theorem: per-date minimums 100 and 250,
average `round(175) = 175`, cheapest 100. -/
theorem monthly_average_of_distinct_dates_witness :
    Except.map (·.averagePrice) (analyzeMonthlyFlightData c1wInput true) = .ok 175 ∧
    Except.map (·.cheapestPrice) (analyzeMonthlyFlightData c1wInput true) = .ok 100 := by
  have h := monthly_average_of_distinct_dates c1wInput true
    (by norm_num [allPricesOf, c1wInput, List.filterMap_cons])
    (by simp [allPricesOf, c1wInput, List.filterMap_cons])
  constructor
  · rw [h.1]
    norm_num [allPricesOf, c1wInput, List.filterMap_cons, specPerDateMin,
      specQuotes, jsMinPrice, listAvg, jround]
  · rw [h.2]
    norm_num [allPricesOf, c1wInput, List.filterMap_cons, specPerDateMin,
      specQuotes, jsMinPrice, listAvg]

/-- The spec's own example: quotes (d1, 100), (d1, 400), (d2, 250), the
two same-date quotes arriving from different sources. -/
def c1Input : List MonthlyResult :=
  [⟨0, "skyscanner", ⟨[⟨"a", 100⟩]⟩, "economy"⟩,
   ⟨0, "google_flights", ⟨[⟨"b", 400⟩]⟩, "economy"⟩,
   ⟨1, "skyscanner", ⟨[⟨"c", 250⟩]⟩, "economy"⟩]

/-- C1 counterexample: on the spec's example the per-date minimums are
100 (date 0) and 250 (date 1), so the claim demands average 175, most
expensive 250 and range 150 — but the code averages the three
per-(date, source) entries, reporting average 250, most expensive 400 and
range 300. -/
theorem monthly_stats_not_per_date_minimums :
    specPerDateMin c1Input 0 = 100 ∧
    specPerDateMin c1Input 1 = 250 ∧
    Except.map (·.averagePrice) (analyzeMonthlyFlightData c1Input true) = .ok 250 ∧
    Except.map (·.averagePrice) (analyzeMonthlyFlightData c1Input true) ≠ .ok 175 ∧
    Except.map (·.mostExpensivePrice) (analyzeMonthlyFlightData c1Input true) = .ok 400 ∧
    Except.map (·.priceRange) (analyzeMonthlyFlightData c1Input true) = .ok 300 := by
  refine ⟨?_, ?_, ?_, ?_, ?_, ?_⟩ <;>
    norm_num [specPerDateMin, specQuotes, jsMinPrice, c1Input,
      analyzeMonthlyFlightData, allPricesOf, mkMonthlyAnalysis, reduceMinBy,
      reduceMaxBy, listAvg, jround, Except.map, List.filterMap_cons]
